import Mathlib

/-!
Shallow embedding of the two Python tools of the model_openness_tool
repository (src/tools-py/find_missing_models.py and
src/tools-py/model_scraper.py), together with theorems that settle the
frozen claims about them.

Conventions of the embedding:
* Python strings are Lean `String`s; all character-level operations are
  implemented on `String.data : List Char` so that every definition is
  executable and kernel-reducible (ASCII semantics, which covers the
  identifiers, tags and file names these tools manipulate).
* Python `dict`s that the code iterates over are association lists
  (`List (key × value)`), which matches Python's insertion-ordered
  iteration; Python `set`s are lists used only through membership and
  intersection-nonemptiness, so duplicates are irrelevant.
* Python floats appear only as literal confidence constants that are
  never computed with; they are embedded as natural numbers scaled by
  100 (0.95 ↦ 95, 0.9 ↦ 90, ...).
* Network calls are embedded by passing their outcomes explicitly
  (an environment record / an existence oracle), and `datetime.now()`
  by an explicit `now` argument.
-/

/-! ### Python string primitives -/

/-- Python `str.lower()` (ASCII). -/
def pyLower (s : String) : String := ⟨s.data.map Char.toLower⟩

/-- Python `str.upper()` (ASCII). -/
def pyUpper (s : String) : String := ⟨s.data.map Char.toUpper⟩

/-- Python `str.replace(a, b)` for single-character `a`, `b`: replacing
every occurrence of a one-character substring is a character map. -/
def pyReplaceChar (s : String) (a b : Char) : String :=
  ⟨s.data.map (fun c => if c = a then b else c)⟩

/-- Occurrence of `needle` as a contiguous sublist of `hay`
(Python `needle in hay` on strings). -/
def occursL (needle hay : List Char) : Bool :=
  hay.tails.any (fun t => needle.isPrefixOf t)

/-- Python substring test `needle in hay`. -/
def pyIn (needle hay : String) : Bool := occursL needle.data hay.data

/-- Python `c in s` for a single character. -/
def pyHasChar (s : String) (c : Char) : Bool := s.data.contains c

/-- Python `s.split(sep)` for a one-character separator, on char lists.
Never returns `[]` (Python returns `[""]` on the empty string). -/
def splitCharL : List Char → Char → List (List Char)
  | [], _ => [[]]
  | c :: rest, sep =>
    match splitCharL rest sep with
    | [] => [[c]]
    | h :: t => if c = sep then [] :: h :: t else (c :: h) :: t

/-- Python `s.split(sep)` for a one-character separator. -/
def pySplit (s : String) (sep : Char) : List String :=
  (splitCharL s.data sep).map (fun l => ⟨l⟩)

/-- Python `s.split(sep)[-1]` (the default is never used because
`pySplit` never returns an empty list). -/
def lastSegment (s : String) (sep : Char) : String :=
  (pySplit s sep).getLastD s

/-- Python `s.split(sep)[0]`. -/
def headSegment (s : String) (sep : Char) : String :=
  (pySplit s sep).headD s

/-- Python `s.split(sep, 1)` on char lists: the part before the first
separator and the (unsplit) part after it. -/
def splitOnceL : List Char → Char → List Char × List Char
  | [], _ => ([], [])
  | c :: rest, sep =>
    if c = sep then ([], rest)
    else
      match splitOnceL rest sep with
      | (a, b) => (c :: a, b)

/-- Python `org, name = s.split(sep, 1)` (used only when `sep` occurs). -/
def pySplitOnce (s : String) (sep : Char) : String × String :=
  match splitOnceL s.data sep with
  | (a, b) => (⟨a⟩, ⟨b⟩)

/-- Python `s.rstrip(c)` for a single strip character. -/
def pyRstrip (s : String) (c : Char) : String :=
  ⟨(s.data.reverse.dropWhile (fun d => d = c)).reverse⟩

/-- Python `str.title()` (ASCII): the first letter of every run of
alphabetic characters is uppercased, the rest lowercased. `prevAlpha`
says whether the previous character was alphabetic. -/
def pyTitleL : List Char → Bool → List Char
  | [], _ => []
  | c :: rest, prevAlpha =>
    (if c.isAlpha then (if prevAlpha then c.toLower else c.toUpper) else c)
      :: pyTitleL rest c.isAlpha

/-- Python `str.title()` (ASCII). -/
def pyTitle (s : String) : String := ⟨pyTitleL s.data false⟩

/-- Python `sep.join(l)`. -/
def pyJoin (sep : String) (l : List String) : String :=
  match l with
  | [] => ""
  | h :: t => t.foldl (fun acc x => acc ++ sep ++ x) h

/-- `"\n".join(lines)`. -/
def joinNl (lines : List String) : String := pyJoin "\n" lines

/-- Python `str(list_of_strings)`: `repr` of a list of strings that
contain no quote or escape characters (the tag domain of these tools). -/
def pyStrList (l : List String) : String :=
  "[" ++ pyJoin ", " (l.map (fun t => "\x27" ++ (t ++ "\x27"))) ++ "]"

/-- Python `s.endswith(suffix)`. -/
def pyEndsWith (s suf : String) : Bool := suf.data.isSuffixOf s.data

/-- A string of `n` copies of `c` (Python `c * n`). -/
def repChar (c : Char) (n : Nat) : String := ⟨List.replicate n c⟩

/-- Right-pad with spaces to width `w` (Python format `{:ws}`). -/
def padRight (w : Nat) (s : String) : String :=
  s ++ repChar ' ' (w - s.length)

/-- Left-pad with spaces to width `w` (Python format `{:>w}`). -/
def padLeft (w : Nat) (s : String) : String :=
  repChar ' ' (w - s.length) ++ s

/-- Insert a comma after every third character of a reversed digit
list (helper for Python's `{:,}` format). -/
def group3 : List Char → List Char
  | a :: b :: c :: d :: rest => a :: b :: c :: ',' :: group3 (d :: rest)
  | l => l

/-- Python `{n:,}`: decimal rendering with thousands separators. -/
def pyComma (n : Nat) : String :=
  ⟨(group3 (Nat.repr n).data.reverse).reverse⟩

/-! Python `re.search(r'(\d+\.?\d*[BMK]?)', s)`: the pattern starts with
a digit, so the leftmost match starts at the first digit of `s`; every
later piece of the pattern is optional and greedy, so no backtracking
can occur and the match is computed by straight maximal-munch. -/

/-- The optional `[BMK]?` tail of the version pattern. -/
def bmkOpt : List Char → List Char
  | [] => []
  | c :: _ => if c = 'B' ∨ c = 'M' ∨ c = 'K' then [c] else []

/-- Greedy match of `\d+\.?\d*[BMK]?` anchored at `l` (whose head is a
digit when called). -/
def verAt (l : List Char) : List Char :=
  let d1 := l.takeWhile Char.isDigit
  let r1 := l.drop d1.length
  match r1 with
  | '.' :: r2 =>
    let d2 := r2.takeWhile Char.isDigit
    let r3 := r2.drop d2.length
    d1 ++ '.' :: (d2 ++ bmkOpt r3)
  | _ => d1 ++ bmkOpt r1

/-- Leftmost match of the version pattern, if any digit occurs. -/
def verScan : List Char → Option (List Char)
  | [] => none
  | c :: rest => if c.isDigit then some (verAt (c :: rest)) else verScan rest

/-- Python `re.search(r'(\d+\.?\d*[BMK]?)', s)`, returning the matched
group. -/
def pyVersionSearch (s : String) : Option String :=
  (verScan s.data).map (fun l => ⟨l⟩)

/-- Python `s.replace(pat, rep)` for a nonempty multi-character pattern,
on char lists, with an explicit fuel (≥ length of `s` suffices):
replaces non-overlapping occurrences left to right. -/
def replaceAllL (pat rep : List Char) : Nat → List Char → List Char
  | 0, s => s
  | _, [] => []
  | fuel + 1, c :: rest =>
    if pat.isPrefixOf (c :: rest) then
      rep ++ replaceAllL pat rep fuel ((c :: rest).drop pat.length)
    else
      c :: replaceAllL pat rep fuel rest

/-- Python `s.replace(pat, rep)` for a nonempty pattern. -/
def pyReplaceStr (s pat rep : String) : String :=
  ⟨replaceAllL pat.data rep.data (s.data.length + 1) s.data⟩

/-! ### find_missing_models.py — data model -/

/-- One entry of a paginated HuggingFace listing, converted at the
boundary into the three fields the finder reads (`model.get('id', '')`,
`model.get('downloads', 0)`, `model.get('tags', [])`). -/
structure HFModel where
  id : String
  downloads : Nat
  tags : List String
deriving DecidableEq, Inhabited

/-- One value of the `mot_models` mapping built by
`MissingModelsFinder.get_mot_models` (lines 85–91): the record's name,
origin, HuggingFace URL, derived identifier set (a Python set, embedded
as a list used only through membership) and source file name. -/
structure MotData where
  name : String
  origin : String
  huggingface : String
  identifiers : List String
  file : String
deriving DecidableEq, Inhabited

/-- The identifier set built for one registry record by
`get_mot_models` (lines 72–83): lower-cased name with both `-`/`_`
swaps, lower-cased origin, and the lower-cased HuggingFace URL with the
`https://huggingface.co/` prefix removed. Empty fields contribute
nothing (Python truthiness guards). -/
def registry_identifiers (name origin huggingface : String) : List String :=
  (if name ≠ "" then
    [pyLower name, pyReplaceChar (pyLower name) '-' '_',
     pyReplaceChar (pyLower name) '_' '-']
   else []) ++
  (if origin ≠ "" then [pyLower origin] else []) ++
  (if huggingface ≠ "" then
    [pyLower (pyReplaceStr huggingface "https://huggingface.co/" "")]
   else [])

/-- `MissingModelsFinder.normalize_model_id` (lines 161–186): the set of
normalized variations of a model ID, embedded as a list in the order the
Python code adds them (set semantics are only used through membership
and intersection). -/
def normalize_model_id (model_id : String) : List String :=
  [pyLower model_id] ++
  (if pyHasChar model_id '/' then
    [pyLower (lastSegment model_id '/'),
     pyReplaceChar (pyLower (lastSegment model_id '/')) '-' '_',
     pyReplaceChar (pyLower (lastSegment model_id '/')) '_' '-']
   else []) ++
  [pyReplaceChar (pyLower model_id) '-' '_',
   pyReplaceChar (pyLower model_id) '_' '-']

/-- Python `variations & mot_identifiers` tested for nonemptiness. -/
def interNonempty (vars ids : List String) : Bool :=
  vars.any (fun v => ids.contains v)

/-- `MissingModelsFinder.is_model_in_mot` (lines 188–208): walk the
`mot_models` mapping in insertion order and return `(True, file)` for
the first record whose identifier set meets the variations of the given
model's id; `(False, '')` if none does. -/
def is_model_in_mot (hf : HFModel) : List (String × MotData) → Bool × String
  | [] => (false, "")
  | (_, d) :: rest =>
    if interNonempty (normalize_model_id hf.id) d.identifiers then
      (true, d.file)
    else is_model_in_mot hf rest

/-- The `categories` dictionary built by
`MissingModelsFinder.categorize_missing_models` (lines 222–227). The
`by_type` dict is an insertion-ordered association list. -/
structure Categories where
  high_priority : List HFModel
  medium_priority : List HFModel
  low_priority : List HFModel
  by_type : List (String × List HFModel)
deriving DecidableEq, Inhabited

/-- The fixed `type_tags` list (lines 243–248). -/
def type_tags : List String :=
  ["text-generation", "text2text-generation",
   "image-to-text", "text-to-image",
   "automatic-speech-recognition", "audio-classification",
   "image-classification", "object-detection"]

/-- Lines 242–253: the first tag of the model that occurs in
`type_tags`, else `'other'`. -/
def modelTypeOf (m : HFModel) : String :=
  match m.tags.find? (fun t => type_tags.contains t) with
  | some t => t
  | none => "other"

/-- Lines 255–257: `categories['by_type'].setdefault`-style update —
append `m` to the list of key `t`, creating the key at the end of the
dict when absent (Python dict insertion order). -/
def assocAppend : List (String × List HFModel) → String → HFModel →
    List (String × List HFModel)
  | [], t, m => [(t, [m])]
  | (k, l) :: rest, t, m =>
    if k = t then (k, l ++ [m]) :: rest
    else (k, l) :: assocAppend rest t m

/-- The body of the `for model in missing_models` loop (lines 229–257):
priority bucket by download count, then type bucket. -/
def catStep (c : Categories) (m : HFModel) : Categories :=
  let c1 :=
    if 100000 ≤ m.downloads then
      { c with high_priority := c.high_priority ++ [m] }
    else if 10000 ≤ m.downloads then
      { c with medium_priority := c.medium_priority ++ [m] }
    else
      { c with low_priority := c.low_priority ++ [m] }
  { c1 with by_type := assocAppend c1.by_type (modelTypeOf m) m }

/-- `MissingModelsFinder.categorize_missing_models` (lines 210–259). -/
def categorize_missing_models (ms : List HFModel) : Categories :=
  ms.foldl catStep ⟨[], [], [], []⟩

/-! Python `sorted(l, key=key, reverse=True)` is a stable sort: elements
are ordered by strictly descending key, and elements with equal keys
keep their original relative order. The embedding realizes exactly this
specification by stable insertion. -/

/-- Insert `a` after every element whose key is at least `key a`
(stability) and before the first element with a strictly smaller key
(descending order). -/
def insDesc (key : α → Nat) (a : α) : List α → List α
  | [] => [a]
  | b :: l => if key a ≤ key b then b :: insDesc key a l else a :: b :: l

/-- Python `sorted(l, key=key, reverse=True)` (stable, descending). -/
def pySortDesc (key : α → Nat) (l : List α) : List α :=
  l.foldl (fun acc a => insDesc key a acc) []

/-- `sorted(categories['by_type'].items(), key=lambda x: len(x[1]),
reverse=True)` (lines 298–300). -/
def sortedTypeCounts (c : Categories) : List (String × List HFModel) :=
  pySortDesc (fun p => p.2.length) c.by_type

/-- `sorted(categories['high_priority'], key=lambda x: x.get('downloads', 0),
reverse=True)` (lines 308–310, 339–341). -/
def sortedHigh (c : Categories) : List HFModel :=
  pySortDesc (fun m => m.downloads) c.high_priority

/-- The same for `categories['medium_priority']` (lines 326–328). -/
def sortedMedium (c : Categories) : List HFModel :=
  pySortDesc (fun m => m.downloads) c.medium_priority

/-- The per-model block of the high-priority section (lines 311–318). -/
def highModelLines (m : HFModel) : List String :=
  ["  " ++ padRight 50 m.id ++ " " ++ padLeft 10 (pyComma m.downloads) ++
     " downloads"] ++
  (if pyJoin ", " (m.tags.take 3) ≠ "" then
    ["    Tags: " ++ pyJoin ", " (m.tags.take 3)]
   else []) ++
  ["    URL: https://huggingface.co/" ++ m.id, ""]

/-- The per-model line of the medium-priority section (lines 329–331)
and of the high-priority section header line. -/
def mediumModelLine (m : HFModel) : String :=
  "  " ++ padRight 50 m.id ++ " " ++ padLeft 10 (pyComma m.downloads) ++
    " downloads"

/-- The `report_lines` list built by
`MissingModelsFinder.generate_report` (lines 261–348). -/
def report_lines (missing : List HFModel) (mot : List (String × MotData)) :
    List String :=
  let categories := categorize_missing_models missing
  [repChar '=' 80,
   "MODEL OPENNESS TOOL - MISSING MODELS REPORT",
   repChar '=' 80,
   "",
   "SUMMARY",
   repChar '-' 80,
   "Models in MOT database:     " ++ pyComma mot.length,
   "Missing models found:       " ++ pyComma missing.length,
   "  - High priority (>100k):  " ++ pyComma categories.high_priority.length,
   "  - Medium priority (10k+): " ++ pyComma categories.medium_priority.length,
   "  - Low priority (<10k):    " ++ pyComma categories.low_priority.length,
   "",
   "MISSING MODELS BY TYPE",
   repChar '-' 80] ++
  ((sortedTypeCounts categories).map (fun p =>
    "  " ++ padRight 30 p.1 ++ " " ++ padLeft 5 (pyComma p.2.length) ++
      " models")) ++
  [""] ++
  (if categories.high_priority ≠ [] then
    ["HIGH PRIORITY MODELS (>100,000 downloads)", repChar '-' 80] ++
    (((sortedHigh categories).take 50).map highModelLines).flatten
   else []) ++
  (if categories.medium_priority ≠ [] then
    ["MEDIUM PRIORITY MODELS (10,000-100,000 downloads)", repChar '-' 80,
     "Total: " ++ Nat.repr categories.medium_priority.length ++ " models",
     "Top 20:"] ++
    ((sortedMedium categories).take 20).map mediumModelLine ++ [""]
   else []) ++
  ["SUGGESTED SCRAPING COMMANDS", repChar '-' 80,
   "High priority models (copy and run):", ""] ++
  ((sortedHigh categories).take 10).map
    (fun m => "python model_scraper.py " ++ m.id) ++
  ["", repChar '=' 80]

/-- `MissingModelsFinder.generate_report` (lines 261–356): the returned
report text (the optional file write is I/O and changes nothing in the
returned value). -/
def generate_report (missing : List HFModel)
    (mot : List (String × MotData)) : String :=
  joinNl (report_lines missing mot)

/-! ### model_scraper.py — data model -/

/-- A value of the `license` key of the HuggingFace `cardData` blob: the
API delivers either a string or a list of strings (the code handles both
in `_format_yaml_mot_style`, lines 455–457). -/
inductive LicVal where
  | str (s : String)
  | list (l : List String)
deriving DecidableEq, Inhabited

/-- Python truthiness of a license value (nonempty string / list). -/
def LicVal.truthy : LicVal → Bool
  | .str s => s ≠ ""
  | .list l => l ≠ []

/-- The `cardData` sub-dictionary of the model-info blob, restricted to
the key the scraper reads; `license = none` models `'license' not in
cardData`. -/
structure CardData where
  license : Option LicVal
deriving DecidableEq, Inhabited

/-- The model-info blob returned by the primary API call, restricted to
the keys the scraper reads; `cardData = none` models `'cardData' not in
model_info`, and `lastModified = ""` models a missing `lastModified`
(the code defaults it to `''`). -/
structure ModelInfo where
  cardData : Option CardData
  tags : List String
  lastModified : String
deriving DecidableEq, Inhabited

/-- The `scraped_data` dictionary built by `scrape_huggingface_model`
(lines 121–128); the always-empty `confidence` sub-dict carries no
information and is omitted. -/
structure ScrapedData where
  model_id : String
  model_info : ModelInfo
  model_card : String
  repo_files : List String
deriving DecidableEq, Inhabited

/-- The outcomes of the three network calls of
`scrape_huggingface_model`, passed explicitly: `info = none` models a
`RequestException` from the primary call (including the
`raise_for_status` path); for the card and file-tree calls, `none`
models a `RequestException` and `some (status, body)` a reply with the
given HTTP status. -/
structure NetEnv where
  info : Option ModelInfo
  card : Option (Nat × String)
  files : Option (Nat × List String)
deriving DecidableEq, Inhabited

/-- `ModelScraper.scrape_huggingface_model` (lines 79–130): failure of
the primary call returns the empty dict (`none`); the card and
file-tree calls contribute their body only on status 200 and otherwise
leave `''` / `[]`. -/
def scrape_huggingface_model (env : NetEnv) (model_id : String) :
    Option ScrapedData :=
  match env.info with
  | none => none
  | some info =>
    some
      { model_id := model_id
        model_info := info
        model_card :=
          match env.card with
          | some (status, text) => if status = 200 then text else ""
          | none => ""
        repo_files :=
          match env.files with
          | some (status, fs) => if status = 200 then fs else []
          | none => [] }

/-- The exit code of the scraper CLI `main` (lines 523–527): an empty
scrape result triggers `sys.exit(1)`, otherwise the run completes
normally (exit 0). -/
def scraper_exit_code (env : NetEnv) (model_id : String) : Nat :=
  match scrape_huggingface_model env model_id with
  | none => 1
  | some _ => 0

/-- One component candidate as appended by `detect_components`. -/
structure Component where
  name : String
  description : String
  license : LicVal
  confidence : Nat
  location : String
deriving DecidableEq, Inhabited

/-- `ModelScraper._detect_license` (lines 238–261): prefer
`model_info['cardData']['license']` when present, truthy and not the
string `'other'`; both remaining branches (a `LICENSE`/`LICENSE.md`
file, which is only a placeholder for manual review, and the final
fallthrough) return `'unlicensed'`. -/
def detect_license (sd : ScrapedData) : LicVal :=
  let fallback :=
    if sd.repo_files.any
        (fun f => pyUpper f = "LICENSE" ∨ pyUpper f = "LICENSE.MD") then
      LicVal.str "unlicensed"
    else
      LicVal.str "unlicensed"
  match sd.model_info.cardData with
  | some cd =>
    match cd.license with
    | some ln => if ln.truthy ∧ ln ≠ .str "other" then ln else fallback
    | none => fallback
  | none => fallback

/-- `ModelScraper.detect_components` (lines 132–236): nine independent
detectors, each appending at most one candidate, in source order. -/
def detect_components (sd : ScrapedData) : List Component :=
  let card := pyLower sd.model_card
  (if sd.repo_files.any (fun f =>
      pyEndsWith f ".bin" ∨ pyEndsWith f ".safetensors" ∨
      pyEndsWith f ".pt" ∨ pyEndsWith f ".pth" ∨ pyEndsWith f ".ckpt") then
    [{ name := "Model parameters (Final)",
       description := "Trained model parameters, weights and biases",
       license := detect_license sd, confidence := 95,
       location := "HuggingFace repository" }]
   else []) ++
  (if ["config.json", "model_config.json", "configuration.json"].any
      (fun f => sd.repo_files.contains f) then
    [{ name := "Model metadata",
       description :=
         "Any model metadata including training configuration and optimizer states",
       license := detect_license sd, confidence := 90,
       location := "HuggingFace repository" }]
   else []) ++
  (if sd.repo_files.any (fun f => pyEndsWith f ".py") ∨
      pyIn "modeling" (pyJoin " " sd.repo_files) then
    [{ name := "Model architecture",
       description := "Well commented code for the model\x27s architecture",
       license := detect_license sd, confidence := 85,
       location := "HuggingFace repository" }]
   else []) ++
  (if sd.repo_files.any (fun f =>
      pyIn "inference" (pyLower f) ∨ pyIn "generate" (pyLower f)) then
    [{ name := "Inference code",
       description := "Code used for running the model to make predictions",
       license := detect_license sd, confidence := 80,
       location := "HuggingFace repository" }]
   else []) ++
  (if sd.repo_files.contains "README.md" ∨ card ≠ "" then
    [{ name := "Model card",
       description :=
         "Model details including performance metrics, intended use, and limitations",
       license := detect_license sd, confidence := 95,
       location := "HuggingFace repository" }]
   else []) ++
  (if ["technical report", "tech report", "documentation"].any
      (fun k => pyIn k card) then
    [{ name := "Technical report",
       description :=
         "Technical report detailing capabilities and usage instructions for the model",
       license := .str "unlicensed", confidence := 60,
       location := "Referenced in model card" }]
   else []) ++
  (if ["paper", "arxiv", "publication"].any (fun k => pyIn k card) then
    [{ name := "Research paper",
       description :=
         "Research paper detailing the development and capabilities of the model",
       license := .str "unlicensed", confidence := 70,
       location := "Referenced in model card" }]
   else []) ++
  (if ["evaluation", "benchmark", "performance", "results"].any
      (fun k => pyIn k card) then
    [{ name := "Evaluation results",
       description := "The results from evaluating the model",
       license := .str "unlicensed", confidence := 75,
       location := "Model card" }]
   else []) ++
  (if ["training data", "trained on", "dataset"].any
      (fun k => pyIn k card) then
    [{ name := "Training dataset",
       description := "The dataset used to train the model",
       license := .str "unlicensed", confidence := 50,
       location := "Referenced in model card" }]
   else [])

/-! Scanning for `re.findall(r'https://github\.com/[^/\s"<>]+/[^/\s"<>]+',
card)`: the pattern starts with a literal, and both character classes
exclude `'/'`, so a match at a position is computed by maximal-munch
with no backtracking; `findall` scans left to right and resumes after
each match. -/

/-- Membership in the class `[^/\s"<>]` (Python `\s` on ASCII). -/
def ghClassChar (c : Char) : Bool :=
  ¬ (c = '/' ∨ c = ' ' ∨ c = '\t' ∨ c = '\n' ∨ c = '\r' ∨
     c = '\x0b' ∨ c = '\x0c' ∨ c = '"' ∨ c = '<' ∨ c = '>')

/-- Try the GitHub-URL pattern anchored at `l`; on success return the
matched characters and the match length. -/
def tryGh (l : List Char) : Option (List Char × Nat) :=
  let pre := "https://github.com/".data
  if pre.isPrefixOf l then
    let after := l.drop pre.length
    let run1 := after.takeWhile ghClassChar
    if run1 = [] then none
    else
      match after.drop run1.length with
      | '/' :: rest2 =>
        let run2 := rest2.takeWhile ghClassChar
        if run2 = [] then none
        else some (pre ++ run1 ++ '/' :: run2,
                   pre.length + run1.length + 1 + run2.length)
      | _ => none
  else none

/-- Left-to-right non-overlapping scan, resuming after each match; the
fuel only needs to exceed the input length. -/
def ghScanF : Nat → List Char → List (List Char)
  | 0, _ => []
  | _ + 1, [] => []
  | fuel + 1, c :: rest =>
    match tryGh (c :: rest) with
    | some (m, len) => m :: ghScanF fuel ((c :: rest).drop len)
    | none => ghScanF fuel rest

/-- `re.findall(github_pattern, model_card)` (lines 276–277). -/
def findGithubUrls (card : String) : List String :=
  (ghScanF (card.data.length + 1) card.data).map (fun l => ⟨l⟩)

/-- `ModelScraper._detect_repository` (lines 263–309), with the network
probe `_check_repo_exists` passed as the oracle `chk`. Returns the
repository URL (`''` for none) and the confidence ×100. -/
def detect_repository (chk : String → Bool) (sd : ScrapedData) :
    String × Nat :=
  match findGithubUrls sd.model_card with
  | u0 :: rest =>
    match (u0 :: rest).find? (fun u =>
        pyIn (pyLower (lastSegment sd.model_id '/'))
          (pyLower (pyRstrip u ')'))) with
    | some u => (pyRstrip u ')', 90)
    | none => (pyRstrip u0 ')', 70)
  | [] =>
    if chk ("https://github.com/" ++ sd.model_id) then
      ("https://github.com/" ++ sd.model_id, 65)
    else if pyHasChar sd.model_id '/' then
      match ([headSegment (pySplitOnce sd.model_id '/').2 '-',
              pyLower (pySplitOnce sd.model_id '/').2,
              (pySplitOnce sd.model_id '/').2].find? (fun b =>
          chk ("https://github.com/" ++
               ((pySplitOnce sd.model_id '/').1 ++ ("/" ++ b))))) with
      | some b =>
        ("https://github.com/" ++
           ((pySplitOnce sd.model_id '/').1 ++ ("/" ++ b)), 60)
      | none => ("", 0)
    else ("", 0)

/-- The `metadata` dictionary built by
`ModelScraper._extract_model_metadata` (lines 390–406); the
`repository` and `repository_confidence` keys are present exactly when
a repository was found (`none` models key absence). -/
structure Metadata where
  name : String
  version : String
  producer : String
  type : String
  architecture : String
  date : String
  origin : String
  huggingface : String
  repository : Option String
  repository_confidence : Option Nat
deriving DecidableEq, Inhabited

/-- The `type_mapping` dictionary (lines 348–356). -/
def type_mapping : List (String × String) :=
  [("text-generation", "language"),
   ("text2text-generation", "language"),
   ("image-to-text", "multimodal"),
   ("text-to-image", "image"),
   ("image-classification", "vision"),
   ("object-detection", "vision"),
   ("automatic-speech-recognition", "audio")]

/-- Lines 347–361: the mapped type of the first tag that is a key of
`type_mapping`, else `''`. -/
def findTypeFromTags (tags : List String) : String :=
  match tags.find? (fun t => type_mapping.any (fun p => p.1 = t)) with
  | some t =>
    match type_mapping.find? (fun p => p.1 = t) with
    | some p => p.2
    | none => ""
  | none => ""

/-- Lines 363–374: architecture heuristic over the lower-cased model
card and the lower-cased stringified tag list. -/
def detect_architecture (cardLow tagsLow : String) : String :=
  if pyIn "transformer" cardLow ∨ pyIn "transformer" tagsLow then
    if pyIn "decoder" cardLow then "transformer decoder"
    else if pyIn "encoder" cardLow then "transformer encoder-decoder"
    else "transformer"
  else if pyIn "diffusion" cardLow ∨ pyIn "diffusion" tagsLow then
    "diffusion"
  else ""

/-- `ModelScraper._extract_model_metadata` (lines 326–406), with
`datetime.now().strftime('%Y-%m-%d')` passed as `now` and the
repository existence probe as `chk`. -/
def extract_model_metadata (sd : ScrapedData) (now : String)
    (chk : String → Bool) : Metadata :=
  let model_id := sd.model_id
  let producer0 :=
    if pyHasChar model_id '/' then headSegment model_id '/' else "Unknown"
  let model_name :=
    if pyHasChar model_id '/' then lastSegment model_id '/' else model_id
  let repo := detect_repository chk sd
  { name := model_name
    version :=
      match pyVersionSearch model_name with
      | some v => v
      | none => "1.0"
    producer :=
      pyTitle (pyReplaceChar (pyReplaceChar producer0 '-' ' ') '_' ' ')
    type := findTypeFromTags sd.model_info.tags
    architecture :=
      detect_architecture (pyLower sd.model_card)
        (pyLower (pyStrList sd.model_info.tags))
    date :=
      if sd.model_info.lastModified ≠ "" then
        headSegment sd.model_info.lastModified 'T'
      else now
    origin := pyLower model_name
    huggingface := "https://huggingface.co/" ++ model_id
    repository := if repo.1 ≠ "" then some repo.1 else none
    repository_confidence := if repo.1 ≠ "" then some repo.2 else none }

/-- The component license line of `_format_yaml_mot_style` (lines
453–462): a list license collapses to its first element (or
`'unlicensed'` when empty); a truthy value other than `'unlicensed'` is
emitted single-quoted verbatim, anything else as the bare token
`unlicensed`. -/
def licenseLine (lv : LicVal) : String :=
  let license_val : String :=
    match lv with
    | .list l => match l with | [] => "unlicensed" | h :: _ => h
    | .str s => s
  if license_val ≠ "" ∧ license_val ≠ "unlicensed" then
    "      license: \x27" ++ (license_val ++ "\x27")
  else
    "      license: unlicensed"

/-- One component block (lines 448–462). -/
def compBlock (c : Component) : List String :=
  ["    -",
   "      name: \x27" ++ (c.name ++ "\x27"),
   "      description: \"" ++ (c.description ++ "\""),
   licenseLine c.license]

/-- The fixed framework header (lines 420–424). -/
def frameworkLines : List String :=
  ["framework:",
   "  name: \x27Model Openness Framework\x27",
   "  version: \x271.0\x27",
   "  date: \x272024-12-15\x27"]

/-- Line 440: the single-quoted repository value. -/
def repositoryLine (r : String) : String :=
  "  repository: \x27" ++ (r ++ "\x27")

/-- Line 444: the single-quoted huggingface value. -/
def huggingfaceLine (md : Metadata) : String :=
  "  huggingface: \x27" ++ (md.huggingface ++ "\x27")

/-- Lines 439–440: the `repository` line, emitted only for a truthy
value (`metadata.get('repository')`). -/
def repoLineOpt (md : Metadata) : List String :=
  match md.repository with
  | some r => if r ≠ "" then [repositoryLine r] else []
  | none => []

/-- Lines 443–444: the `huggingface` line, emitted only for a truthy
value. -/
def hfLineOpt (md : Metadata) : List String :=
  if md.huggingface ≠ "" then [huggingfaceLine md] else []

/-- Lines 447–462: one block per component, in list order. -/
def componentLines (comps : List Component) : List String :=
  (comps.map compBlock).flatten

/-- Line 428: `  name: {metadata['name']}`. -/
def nameLine (md : Metadata) : String := "  name: " ++ md.name

/-- Line 429: the single-quoted version value. -/
def versionLine (md : Metadata) : String :=
  "  version: \x27" ++ (md.version ++ "\x27")

/-- Line 430: the single-quoted date value. -/
def dateLine (md : Metadata) : String :=
  "  date: \x27" ++ (md.date ++ "\x27")

/-- Line 432: the single-quoted type value. -/
def typeLine (md : Metadata) : String :=
  "  type: \x27" ++ (md.type ++ "\x27")

/-- Line 433: the single-quoted architecture value. -/
def architectureLine (md : Metadata) : String :=
  "  architecture: \x27" ++ (md.architecture ++ "\x27")

/-- Line 434: `  origin: {metadata['origin']}`. -/
def originLine (md : Metadata) : String := "  origin: " ++ md.origin

/-- Line 435: the single-quoted producer value. -/
def producerLine (md : Metadata) : String :=
  "  producer: \x27" ++ (md.producer ++ "\x27")

/-- The release section and component blocks (lines 426–462): fixed key
order, optional `repository`/`huggingface` lines only on truthy values,
one block per component in list order. -/
def releaseLines (md : Metadata) (comps : List Component) : List String :=
  ["release:",
   nameLine md,
   versionLine md,
   dateLine md,
   "  license: \x7b  \x7d",
   typeLine md,
   architectureLine md,
   originLine md,
   producerLine md,
   "  contact: \x27\x27"] ++
  repoLineOpt md ++
  hfLineOpt md ++
  ["  components:"] ++
  componentLines comps

/-- The full `lines` list of `_format_yaml_mot_style` (lines 408–464). -/
def formatLines (md : Metadata) (comps : List Component) : List String :=
  frameworkLines ++ releaseLines md comps

/-- `ModelScraper._format_yaml_mot_style` (lines 408–464): the joined
YAML text. -/
def format_yaml_mot_style (md : Metadata) (comps : List Component) :
    String :=
  joinNl (formatLines md comps)

/-- `ModelScraper.generate_yaml` (lines 466–491), without the optional
file write. -/
def generate_yaml (sd : ScrapedData) (now : String)
    (chk : String → Bool) : String :=
  format_yaml_mot_style (extract_model_metadata sd now chk)
    (detect_components sd)

/-! ### Helper definitions used by the theorems -/

/-- Two character lists disagree at some position before either
ends. Lines built from such keys can never be equal, whatever their
suffixes. -/
def keysIncompat : List Char → List Char → Bool
  | [], _ => false
  | _ :: _, [] => false
  | a :: k1, b :: k2 => if a = b then keysIncompat k1 k2 else true

/-- Lookup in the insertion-ordered `by_type` dict (first binding). -/
def assocGet (bt : List (String × List HFModel)) (t : String) :
    List HFModel :=
  match bt with
  | [] => []
  | (k, l) :: rest => if k = t then l else assocGet rest t

/-- The key order of `by_type`: first occurrence of each type. -/
def firstOccStep (ks : List String) (m : HFModel) : List String :=
  if modelTypeOf m ∈ ks then ks else ks ++ [modelTypeOf m]

/-! ### Helper lemmas: distinguishing keyed lines -/

theorem append_ne_of_keysIncompat :
    ∀ (k1 k2 : List Char), keysIncompat k1 k2 = true →
      ∀ (s1 s2 : List Char), k1 ++ s1 ≠ k2 ++ s2 := by
  intro k1
  induction k1 with
  | nil => intro k2 h; cases k2 <;> simp [keysIncompat] at h
  | cons a k1 ih =>
    intro k2 h
    cases k2 with
    | nil => simp [keysIncompat] at h
    | cons b k2 =>
      intro s1 s2 he
      simp only [List.cons_append, List.cons.injEq] at he
      by_cases hab : a = b
      · rw [keysIncompat, if_pos hab] at h
        exact ih k2 h s1 s2 he.2
      · exact hab he.1

/-- String version: keyed lines with incompatible keys differ. -/
theorem strKeyNe (k1 k2 s1 s2 : String)
    (h : keysIncompat k1.data k2.data = true) : k1 ++ s1 ≠ k2 ++ s2 := by
  intro he
  have hd : k1.data ++ s1.data = k2.data ++ s2.data := by
    have := congrArg String.data he
    simpa [String.data_append] using this
  exact append_ne_of_keysIncompat _ _ h _ _ hd

/-- A keyed line differs from a fixed line whose text is incompatible
with the key. -/
theorem strKeyNeLit (k c s : String)
    (h : keysIncompat k.data c.data = true) : k ++ s ≠ c := by
  intro he
  have hd : k.data ++ s.data = c.data ++ [] := by
    have := congrArg String.data he
    simpa [String.data_append] using this
  exact append_ne_of_keysIncompat _ _ h _ _ hd

/-- Symmetric variant of `strKeyNeLit`. -/
theorem strLitNeKey (c k s : String)
    (h : keysIncompat c.data k.data = true) : c ≠ k ++ s := by
  intro he
  exact strKeyNeLit k c s (by
    clear he
    revert h
    generalize c.data = cd
    generalize k.data = kd
    intro h
    induction kd generalizing cd with
    | nil => cases cd <;> simp [keysIncompat] at h ⊢
    | cons b kd ih =>
      cases cd with
      | nil => simp [keysIncompat] at h
      | cons a cd =>
        by_cases hab : a = b
        · rw [keysIncompat, if_pos hab] at h
          rw [keysIncompat, if_pos hab.symm]
          exact ih cd h
        · rw [keysIncompat, if_neg (fun hh => hab hh.symm)]) he.symm

/-- A key that is incompatible with another key is not a prefix of any
line built from that other key. -/
theorem isPrefixOf_append_eq_false :
    ∀ (p k : List Char), keysIncompat p k = true →
      ∀ (s : List Char), p.isPrefixOf (k ++ s) = false := by
  intro p
  induction p with
  | nil => intro k h; cases k <;> simp [keysIncompat] at h
  | cons a p ih =>
    intro k h s
    cases k with
    | nil => simp [keysIncompat] at h
    | cons b k =>
      rw [List.cons_append, List.isPrefixOf_cons₂]
      by_cases hab : a = b
      · rw [keysIncompat, if_pos hab] at h
        simp [ih k h s]
      · simp [Bool.and_eq_false_iff]
        intro hb
        exact absurd (by simpa using hb) hab

/-- The same for a fixed line. -/
theorem isPrefixOf_lit_eq_false (p c : List Char)
    (h : keysIncompat p c = true) : p.isPrefixOf c = false := by
  have := isPrefixOf_append_eq_false p c h []
  simpa using this

/-! ### Helper lemmas: the stable descending sort -/

theorem insDesc_perm (key : α → Nat) (a : α) (l : List α) :
    (insDesc key a l).Perm (a :: l) := by
  induction l with
  | nil => simp [insDesc]
  | cons b l ih =>
    rw [insDesc]
    split
    · exact ((List.perm_cons b).mpr ih).trans (List.Perm.swap a b l)
    · exact List.Perm.refl _

theorem insDesc_mem {key : α → Nat} {a x : α} {l : List α}
    (h : x ∈ insDesc key a l) : x = a ∨ x ∈ l := by
  have := (insDesc_perm key a l).mem_iff.mp h
  simpa using this

theorem insDesc_pairwise (key : α → Nat) (a : α) (l : List α)
    (h : List.Pairwise (fun x y => key y ≤ key x) l) :
    List.Pairwise (fun x y => key y ≤ key x) (insDesc key a l) := by
  induction l with
  | nil => simp [insDesc]
  | cons b l ih =>
    rw [List.pairwise_cons] at h
    rw [insDesc]
    split
    · rename_i hab
      rw [List.pairwise_cons]
      refine ⟨?_, ih h.2⟩
      intro y hy
      rcases insDesc_mem hy with rfl | hy
      · exact hab
      · exact h.1 y hy
    · rename_i hab
      rw [List.pairwise_cons]
      refine ⟨?_, List.pairwise_cons.mpr h⟩
      intro y hy
      rcases List.mem_cons.mp hy with rfl | hy
      · exact Nat.le_of_lt (Nat.lt_of_not_le hab)
      · exact Nat.le_trans (h.1 y hy) (Nat.le_of_lt (Nat.lt_of_not_le hab))

theorem filter_eq_nil_of_lt (key : α → Nat) (n : Nat) (b : α) (l : List α)
    (h : List.Pairwise (fun x y => key y ≤ key x) (b :: l))
    (hb : key b < n) :
    (b :: l).filter (fun x => key x == n) = [] := by
  rw [List.filter_eq_nil_iff]
  intro y hy
  rcases List.mem_cons.mp hy with rfl | hy
  · simp [Nat.ne_of_lt hb]
  · rw [List.pairwise_cons] at h
    have : key y ≤ key b := h.1 y hy
    simp [Nat.ne_of_lt (Nat.lt_of_le_of_lt this hb)]

theorem insDesc_filter (key : α → Nat) (n : Nat) (a : α) (l : List α)
    (h : List.Pairwise (fun x y => key y ≤ key x) l) :
    (insDesc key a l).filter (fun x => key x == n) =
      if key a = n then
        l.filter (fun x => key x == n) ++ [a]
      else
        l.filter (fun x => key x == n) := by
  induction l with
  | nil =>
    by_cases hn : key a = n <;> simp [insDesc, hn]
  | cons b l ih =>
    rw [List.pairwise_cons] at h
    rw [insDesc]
    split
    · rename_i hab
      rw [List.filter_cons, List.filter_cons, ih h.2]
      by_cases hbn : key b = n <;> by_cases han : key a = n <;>
        simp [hbn, han]
    · rename_i hab
      by_cases han : key a = n
      · have hnil :
            (b :: l).filter (fun x => key x == n) = [] := by
          refine filter_eq_nil_of_lt key n b l
            (List.pairwise_cons.mpr h) ?_
          rw [← han]
          exact Nat.lt_of_not_le hab
        rw [List.filter_cons]
        simp only [han]
        simp [hnil]
      · rw [List.filter_cons]
        simp [han]

theorem foldl_insDesc_pairwise (key : α → Nat) (l : List α) :
    ∀ acc, List.Pairwise (fun x y => key y ≤ key x) acc →
      List.Pairwise (fun x y => key y ≤ key x)
        (l.foldl (fun acc a => insDesc key a acc) acc) := by
  induction l with
  | nil => intro acc h; simpa using h
  | cons a l ih =>
    intro acc h
    exact ih (insDesc key a acc) (insDesc_pairwise key a acc h)

theorem foldl_insDesc_perm (key : α → Nat) (l : List α) :
    ∀ acc, (l.foldl (fun acc a => insDesc key a acc) acc).Perm (acc ++ l) := by
  induction l with
  | nil => intro acc; simp
  | cons a l ih =>
    intro acc
    rw [List.foldl_cons]
    refine (ih (insDesc key a acc)).trans ?_
    refine (List.Perm.append_right l ((insDesc_perm key a acc))).trans ?_
    exact (@List.perm_middle _ a acc l).symm

theorem foldl_insDesc_filter (key : α → Nat) (n : Nat) (l : List α) :
    ∀ acc, List.Pairwise (fun x y => key y ≤ key x) acc →
      (l.foldl (fun acc a => insDesc key a acc) acc).filter
          (fun x => key x == n) =
        acc.filter (fun x => key x == n) ++
          l.filter (fun x => key x == n) := by
  induction l with
  | nil => intro acc h; simp
  | cons a l ih =>
    intro acc h
    rw [List.foldl_cons, ih (insDesc key a acc) (insDesc_pairwise key a acc h),
        insDesc_filter key n a acc h, List.filter_cons]
    by_cases han : key a = n
    · simp [han, List.append_assoc]
    · simp [han]

/-- `pySortDesc` permutes its input. -/
theorem pySortDesc_perm (key : α → Nat) (l : List α) :
    (pySortDesc key l).Perm l := by
  have := foldl_insDesc_perm key l []
  simpa [pySortDesc] using this

/-- `pySortDesc` sorts by weakly descending key. -/
theorem pySortDesc_pairwise (key : α → Nat) (l : List α) :
    List.Pairwise (fun x y => key y ≤ key x) (pySortDesc key l) :=
  foldl_insDesc_pairwise key l [] (by simp)

/-- `pySortDesc` is stable: the elements of any one key value appear in
their original order. -/
theorem pySortDesc_filter (key : α → Nat) (n : Nat) (l : List α) :
    (pySortDesc key l).filter (fun x => key x == n) =
      l.filter (fun x => key x == n) := by
  have := foldl_insDesc_filter key n l [] (by simp)
  simpa [pySortDesc] using this

/-! ### Helper lemmas: the categorize fold -/

theorem assocGet_assocAppend_self (bt : List (String × List HFModel))
    (t : String) (m : HFModel) :
    assocGet (assocAppend bt t m) t = assocGet bt t ++ [m] := by
  induction bt with
  | nil => simp [assocAppend, assocGet]
  | cons p rest ih =>
    match p with
    | (k, l) =>
      by_cases hk : k = t
      · simp [assocAppend, assocGet, hk]
      · simp [assocAppend, assocGet, hk, ih]

theorem assocGet_assocAppend_other (bt : List (String × List HFModel))
    (t u : String) (m : HFModel) (h : u ≠ t) :
    assocGet (assocAppend bt t m) u = assocGet bt u := by
  have htu : t ≠ u := fun hh => h hh.symm
  induction bt with
  | nil =>
    simp only [assocAppend, assocGet]
    rw [if_neg htu]
  | cons p rest ih =>
    match p with
    | (k, l) =>
      by_cases hk : k = t
      · have hku : k ≠ u := fun hh => htu (hk ▸ hh)
        simp only [assocAppend, if_pos hk, assocGet]
        rw [if_neg hku, if_neg hku]
      · simp only [assocAppend, if_neg hk, assocGet]
        by_cases hu : k = u
        · rw [if_pos hu, if_pos hu]
        · rw [if_neg hu, if_neg hu]
          exact ih

theorem assocAppend_keys (bt : List (String × List HFModel))
    (t : String) (m : HFModel) :
    (assocAppend bt t m).map Prod.fst =
      if t ∈ bt.map Prod.fst then bt.map Prod.fst
      else bt.map Prod.fst ++ [t] := by
  induction bt with
  | nil => simp [assocAppend]
  | cons p rest ih =>
    match p with
    | (k, l) =>
      by_cases hk : k = t
      · simp [assocAppend, hk]
      · have hne : t ≠ k := fun hh => hk hh.symm
        simp only [assocAppend, if_neg hk, List.map_cons, List.mem_cons]
        rw [ih]
        by_cases hc : t ∈ rest.map Prod.fst
        · simp [hc]
        · simp [hc, hne]

theorem assocAppend_keys_nodup (bt : List (String × List HFModel))
    (t : String) (m : HFModel) (h : (bt.map Prod.fst).Nodup) :
    ((assocAppend bt t m).map Prod.fst).Nodup := by
  rw [assocAppend_keys]
  by_cases hc : t ∈ bt.map Prod.fst
  · rw [if_pos hc]; exact h
  · rw [if_neg hc]
    simp [List.nodup_append, h, hc]

theorem assocGet_of_mem (bt : List (String × List HFModel))
    (t : String) (l : List HFModel) (hnd : (bt.map Prod.fst).Nodup)
    (h : (t, l) ∈ bt) : assocGet bt t = l := by
  induction bt with
  | nil => simp at h
  | cons p rest ih =>
    match p with
    | (k, l0) =>
      simp only [List.map_cons, List.nodup_cons] at hnd
      rcases List.mem_cons.mp h with heq | hmem
      · rw [Prod.mk.injEq] at heq
        simp [assocGet, heq.1, heq.2]
      · have hk : k ≠ t := by
          intro hk
          subst hk
          exact hnd.1 (List.mem_map.mpr ⟨(k, l), hmem, rfl⟩)
        simp only [assocGet, if_neg hk]
        exact ih hnd.2 hmem

theorem mem_of_assocGet (bt : List (String × List HFModel))
    (t : String) (h : t ∈ bt.map Prod.fst) : (t, assocGet bt t) ∈ bt := by
  induction bt with
  | nil => simp at h
  | cons p rest ih =>
    match p with
    | (k, l0) =>
      by_cases hk : k = t
      · subst hk
        simp [assocGet]
      · simp only [List.map_cons, List.mem_cons] at h
        rcases h with h | h
        · exact absurd h.symm hk
        · simp only [assocGet, if_neg hk]
          exact List.mem_cons_of_mem _ (ih h)

theorem catStep_high (c : Categories) (m : HFModel) :
    (catStep c m).high_priority =
      if 100000 ≤ m.downloads then c.high_priority ++ [m]
      else c.high_priority := by
  unfold catStep
  dsimp only
  split_ifs <;> rfl

theorem catStep_medium (c : Categories) (m : HFModel) :
    (catStep c m).medium_priority =
      if 100000 ≤ m.downloads then c.medium_priority
      else if 10000 ≤ m.downloads then c.medium_priority ++ [m]
      else c.medium_priority := by
  unfold catStep
  dsimp only
  split_ifs <;> rfl

theorem catStep_low (c : Categories) (m : HFModel) :
    (catStep c m).low_priority =
      if 100000 ≤ m.downloads then c.low_priority
      else if 10000 ≤ m.downloads then c.low_priority
      else c.low_priority ++ [m] := by
  unfold catStep
  dsimp only
  split_ifs <;> rfl

theorem catStep_by_type (c : Categories) (m : HFModel) :
    (catStep c m).by_type = assocAppend c.by_type (modelTypeOf m) m := by
  unfold catStep
  dsimp only
  split_ifs <;> rfl

theorem foldl_catStep_high (ms : List HFModel) :
    ∀ c, (ms.foldl catStep c).high_priority =
      c.high_priority ++ ms.filter (fun m => decide (100000 ≤ m.downloads)) := by
  induction ms with
  | nil => intro c; simp
  | cons m ms ih =>
    intro c
    rw [List.foldl_cons, ih, catStep_high, List.filter_cons]
    by_cases h : 100000 ≤ m.downloads
    · simp [h, List.append_assoc]
    · simp [h]

theorem foldl_catStep_medium (ms : List HFModel) :
    ∀ c, (ms.foldl catStep c).medium_priority =
      c.medium_priority ++
        ms.filter (fun m =>
          decide (10000 ≤ m.downloads ∧ m.downloads < 100000)) := by
  induction ms with
  | nil => intro c; simp
  | cons m ms ih =>
    intro c
    rw [List.foldl_cons, ih, catStep_medium, List.filter_cons]
    by_cases h1 : 100000 ≤ m.downloads
    · have hp : ¬ (10000 ≤ m.downloads ∧ m.downloads < 100000) := by omega
      simp [h1, hp]
    · by_cases h2 : 10000 ≤ m.downloads
      · have hp : 10000 ≤ m.downloads ∧ m.downloads < 100000 := by omega
        simp [h1, h2, hp, List.append_assoc]
      · have hp : ¬ (10000 ≤ m.downloads ∧ m.downloads < 100000) := by omega
        simp [h1, h2, hp]

theorem foldl_catStep_low (ms : List HFModel) :
    ∀ c, (ms.foldl catStep c).low_priority =
      c.low_priority ++
        ms.filter (fun m => decide (m.downloads < 10000)) := by
  induction ms with
  | nil => intro c; simp
  | cons m ms ih =>
    intro c
    rw [List.foldl_cons, ih, catStep_low, List.filter_cons]
    by_cases h1 : 100000 ≤ m.downloads
    · have hp : ¬ m.downloads < 10000 := by omega
      simp [h1, hp]
    · by_cases h2 : 10000 ≤ m.downloads
      · have hp : ¬ m.downloads < 10000 := by omega
        simp [h1, h2, hp]
      · have hp : m.downloads < 10000 := by omega
        simp [h1, h2, hp, List.append_assoc]

theorem foldl_catStep_assocGet (ms : List HFModel) :
    ∀ c t, assocGet (ms.foldl catStep c).by_type t =
      assocGet c.by_type t ++
        ms.filter (fun m => decide (modelTypeOf m = t)) := by
  induction ms with
  | nil => intro c t; simp
  | cons m ms ih =>
    intro c t
    rw [List.foldl_cons, ih, catStep_by_type, List.filter_cons]
    by_cases ht : modelTypeOf m = t
    · rw [← ht, assocGet_assocAppend_self]
      simp [ht, List.append_assoc]
    · rw [assocGet_assocAppend_other _ _ _ _ (fun hh => ht hh.symm)]
      simp [ht]

theorem foldl_catStep_keys (ms : List HFModel) :
    ∀ c, (ms.foldl catStep c).by_type.map Prod.fst =
      ms.foldl firstOccStep (c.by_type.map Prod.fst) := by
  induction ms with
  | nil => intro c; rfl
  | cons m ms ih =>
    intro c
    rw [List.foldl_cons, List.foldl_cons, ih, catStep_by_type,
        assocAppend_keys]
    rfl

theorem foldl_catStep_keys_nodup (ms : List HFModel) :
    ∀ c, (c.by_type.map Prod.fst).Nodup →
      ((ms.foldl catStep c).by_type.map Prod.fst).Nodup := by
  induction ms with
  | nil => intro c h; exact h
  | cons m ms ih =>
    intro c h
    rw [List.foldl_cons]
    refine ih _ ?_
    rw [catStep_by_type]
    exact assocAppend_keys_nodup _ _ _ h

theorem subset_foldl_firstOccStep (ms : List HFModel) :
    ∀ ks, ks ⊆ ms.foldl firstOccStep ks := by
  induction ms with
  | nil => intro ks; exact fun _ h => h
  | cons m ms ih =>
    intro ks
    rw [List.foldl_cons]
    refine List.Subset.trans ?_ (ih (firstOccStep ks m))
    unfold firstOccStep
    split_ifs
    · exact fun _ h => h
    · exact fun x h => List.mem_append_left _ h

theorem typeOf_mem_foldl_firstOccStep (ms : List HFModel) (m : HFModel)
    (hm : m ∈ ms) :
    ∀ ks, modelTypeOf m ∈ ms.foldl firstOccStep ks := by
  induction ms with
  | nil => simp at hm
  | cons a ms ih =>
    intro ks
    rw [List.foldl_cons]
    rcases List.mem_cons.mp hm with rfl | hm
    · refine subset_foldl_firstOccStep ms (firstOccStep ks m) ?_
      unfold firstOccStep
      split_ifs with h
      · exact h
      · exact List.mem_append_right _ (by simp)
    · exact ih hm (firstOccStep ks a)

/-! ### Shared facts about the license detector -/

theorem detect_license_cases (sd : ScrapedData) :
    (∃ cd ln, sd.model_info.cardData = some cd ∧ cd.license = some ln ∧
      ln.truthy = true ∧ ln ≠ .str "other" ∧ detect_license sd = ln) ∨
    detect_license sd = .str "unlicensed" := by
  obtain ⟨mid, ⟨cardData, tags, lastM⟩, card, files⟩ := sd
  cases cardData with
  | none =>
    right
    unfold detect_license
    split_ifs <;> rfl
  | some cd =>
    obtain ⟨lic⟩ := cd
    cases lic with
    | none =>
      right
      unfold detect_license
      split_ifs <;> rfl
    | some ln =>
      by_cases h : ln.truthy = true ∧ ln ≠ .str "other"
      · left
        refine ⟨⟨some ln⟩, ln, rfl, rfl, h.1, h.2, ?_⟩
        dsimp only [detect_license]
        rw [if_pos h]
      · right
        dsimp only [detect_license]
        rw [if_neg h]
        split_ifs <;> rfl

theorem detect_license_truthy (sd : ScrapedData) :
    (detect_license sd).truthy = true ∧
      detect_license sd ≠ .str "other" := by
  rcases detect_license_cases sd with ⟨cd, ln, _, _, ht, ho, he⟩ | he
  · rw [he]; exact ⟨ht, ho⟩
  · rw [he]; exact ⟨by decide, by decide⟩

theorem detect_license_files_irrelevant (sd : ScrapedData)
    (files : List String) :
    detect_license ⟨sd.model_id, sd.model_info, sd.model_card, files⟩ =
      detect_license sd := by
  obtain ⟨mid, ⟨cardData, tags, lastM⟩, card, files0⟩ := sd
  cases cardData with
  | none =>
    unfold detect_license
    split_ifs <;> rfl
  | some cd =>
    obtain ⟨lic⟩ := cd
    cases lic with
    | none =>
      unfold detect_license
      split_ifs <;> rfl
    | some ln =>
      unfold detect_license
      split_ifs <;> rfl

/-- Claim C5: `_detect_license` returns the explicit license value from
the model-info blob exactly when that field is present, truthy and not
the sentinel `'other'`; in every other case (field absent, falsy, or
`'other'`) it returns `'unlicensed'`, and the presence of a
`LICENSE`/`LICENSE.md` file in the listing never changes the result. -/
theorem detect_license_spec (sd : ScrapedData) :
    (∀ cd ln, sd.model_info.cardData = some cd → cd.license = some ln →
      ln.truthy = true → ln ≠ .str "other" → detect_license sd = ln) ∧
    ((sd.model_info.cardData = none ∨
      (∃ cd, sd.model_info.cardData = some cd ∧ cd.license = none) ∨
      (∃ cd ln, sd.model_info.cardData = some cd ∧ cd.license = some ln ∧
        (ln.truthy = false ∨ ln = .str "other"))) →
      detect_license sd = .str "unlicensed") ∧
    (∀ files,
      detect_license ⟨sd.model_id, sd.model_info, sd.model_card, files⟩ =
        detect_license sd) := by
  refine ⟨?_, ?_, detect_license_files_irrelevant sd⟩
  · intro cd ln hcd hln ht ho
    obtain ⟨mid, ⟨cardData, tags, lastM⟩, card, files⟩ := sd
    dsimp only at hcd
    subst hcd
    obtain ⟨lic⟩ := cd
    dsimp only at hln
    subst hln
    dsimp only [detect_license]
    rw [if_pos ⟨ht, ho⟩]
  · intro h
    obtain ⟨mid, ⟨cardData, tags, lastM⟩, card, files⟩ := sd
    rcases h with hcd | ⟨cd, hcd, hln⟩ | ⟨cd, ln, hcd, hln, hbad⟩
    · dsimp only at hcd
      subst hcd
      unfold detect_license
      split_ifs <;> rfl
    · dsimp only at hcd
      subst hcd
      obtain ⟨lic⟩ := cd
      dsimp only at hln
      subst hln
      unfold detect_license
      split_ifs <;> rfl
    · dsimp only at hcd
      subst hcd
      obtain ⟨lic⟩ := cd
      dsimp only at hln
      subst hln
      have hneg : ¬ (ln.truthy = true ∧ ln ≠ .str "other") := by
        rcases hbad with hb | hb
        · intro hh; rw [hb] at hh; exact absurd hh.1 (by simp)
        · intro hh; exact hh.2 hb
      dsimp only [detect_license]
      rw [if_neg hneg]
      split_ifs <;> rfl

/-- Claim C5 witness: a blob whose license field is the sentinel
`'other'` with a `LICENSE` file in the listing still yields
`'unlicensed'`. -/
theorem detect_license_spec_witness :
    detect_license ⟨"m", ⟨some ⟨some (.str "other")⟩, [], ""⟩, "",
      ["LICENSE"]⟩ = .str "unlicensed" :=
  (detect_license_spec ⟨"m", ⟨some ⟨some (.str "other")⟩, [], ""⟩, "",
      ["LICENSE"]⟩).2.1
    (Or.inr (Or.inr ⟨⟨some (.str "other")⟩, .str "other", rfl, rfl,
      Or.inr rfl⟩))

/-- Claim C10: `_detect_license` never returns `'other'` and never a
falsy value — it is either the truthy non-`'other'` value taken
verbatim from the blob or exactly `'unlicensed'` — and every component
candidate produced by `detect_components` carries a license satisfying
the same invariant. -/
theorem detect_license_invariant (sd : ScrapedData) :
    ((detect_license sd).truthy = true ∧
     detect_license sd ≠ .str "other" ∧
     ((∃ cd ln, sd.model_info.cardData = some cd ∧ cd.license = some ln ∧
        ln.truthy = true ∧ ln ≠ .str "other" ∧ detect_license sd = ln) ∨
      detect_license sd = .str "unlicensed")) ∧
    (∀ c ∈ detect_components sd,
      c.license.truthy = true ∧ c.license ≠ .str "other" ∧
        (c.license = detect_license sd ∨ c.license = .str "unlicensed")) := by
  refine ⟨⟨(detect_license_truthy sd).1, (detect_license_truthy sd).2,
    detect_license_cases sd⟩, ?_⟩
  intro c hc
  have hdl := detect_license_truthy sd
  have hfix : c.license = detect_license sd ∨ c.license = .str "unlicensed" →
      c.license.truthy = true ∧ c.license ≠ .str "other" ∧
        (c.license = detect_license sd ∨ c.license = .str "unlicensed") := by
    intro h
    rcases h with h | h <;> rw [h]
    · exact ⟨hdl.1, hdl.2, Or.inl rfl⟩
    · exact ⟨by decide, by decide, Or.inr rfl⟩
  simp only [detect_components, List.mem_append] at hc
  rcases hc with
    ((((((((hc | hc) | hc) | hc) | hc) | hc) | hc) | hc) | hc)
  · split_ifs at hc with h
    · rw [List.mem_singleton] at hc; subst hc; exact hfix (Or.inl rfl)
    · exact absurd hc (by simp)
  · split_ifs at hc with h
    · rw [List.mem_singleton] at hc; subst hc; exact hfix (Or.inl rfl)
    · exact absurd hc (by simp)
  · split_ifs at hc with h
    · rw [List.mem_singleton] at hc; subst hc; exact hfix (Or.inl rfl)
    · exact absurd hc (by simp)
  · split_ifs at hc with h
    · rw [List.mem_singleton] at hc; subst hc; exact hfix (Or.inl rfl)
    · exact absurd hc (by simp)
  · split_ifs at hc with h
    · rw [List.mem_singleton] at hc; subst hc; exact hfix (Or.inl rfl)
    · exact absurd hc (by simp)
  · split_ifs at hc with h
    · rw [List.mem_singleton] at hc; subst hc; exact hfix (Or.inr rfl)
    · exact absurd hc (by simp)
  · split_ifs at hc with h
    · rw [List.mem_singleton] at hc; subst hc; exact hfix (Or.inr rfl)
    · exact absurd hc (by simp)
  · split_ifs at hc with h
    · rw [List.mem_singleton] at hc; subst hc; exact hfix (Or.inr rfl)
    · exact absurd hc (by simp)
  · split_ifs at hc with h
    · rw [List.mem_singleton] at hc; subst hc; exact hfix (Or.inr rfl)
    · exact absurd hc (by simp)

/-- Claim C10 witness: on a listing with only a parameters file, the
single detected component carries the license `'unlicensed'`, which is
truthy and not `'other'`. -/
theorem detect_license_invariant_witness :
    (Component.mk "Model parameters (Final)"
      "Trained model parameters, weights and biases"
      (LicVal.str "unlicensed") 95 "HuggingFace repository").license.truthy
        = true ∧
    (Component.mk "Model parameters (Final)"
      "Trained model parameters, weights and biases"
      (LicVal.str "unlicensed") 95 "HuggingFace repository").license ≠
        LicVal.str "other" :=
  ⟨((detect_license_invariant
      ⟨"m", ⟨none, [], ""⟩, "", ["model.safetensors"]⟩).2
    (Component.mk "Model parameters (Final)"
      "Trained model parameters, weights and biases"
      (LicVal.str "unlicensed") 95 "HuggingFace repository")
    (by decide)).1,
   ((detect_license_invariant
      ⟨"m", ⟨none, [], ""⟩, "", ["model.safetensors"]⟩).2
    (Component.mk "Model parameters (Final)"
      "Trained model parameters, weights and biases"
      (LicVal.str "unlicensed") 95 "HuggingFace repository")
    (by decide)).2.1⟩

/-- Claim C2: for every identifier containing the organization
separator `/`, the normalized variant set contains the lower-cased full
string, the lower-cased trailing segment, and both `-`/`_` swapped
forms of each. -/
theorem normalize_model_id_contains_variants (model_id : String)
    (h : pyHasChar model_id '/' = true) :
    pyLower model_id ∈ normalize_model_id model_id ∧
    pyLower (lastSegment model_id '/') ∈ normalize_model_id model_id ∧
    pyReplaceChar (pyLower model_id) '-' '_' ∈
      normalize_model_id model_id ∧
    pyReplaceChar (pyLower model_id) '_' '-' ∈
      normalize_model_id model_id ∧
    pyReplaceChar (pyLower (lastSegment model_id '/')) '-' '_' ∈
      normalize_model_id model_id ∧
    pyReplaceChar (pyLower (lastSegment model_id '/')) '_' '-' ∈
      normalize_model_id model_id := by
  simp only [normalize_model_id, h, if_true, List.mem_append,
    List.mem_cons, List.mem_singleton, List.not_mem_nil]
  refine ⟨by tauto, by tauto, by tauto, by tauto, by tauto, by tauto⟩

/-- Claim C2 witness at `meta-llama/Llama-3-8B`. -/
theorem normalize_model_id_contains_variants_witness :
    pyLower "meta-llama/Llama-3-8B" ∈
        normalize_model_id "meta-llama/Llama-3-8B" ∧
    pyLower (lastSegment "meta-llama/Llama-3-8B" '/') ∈
        normalize_model_id "meta-llama/Llama-3-8B" ∧
    pyReplaceChar (pyLower "meta-llama/Llama-3-8B") '-' '_' ∈
        normalize_model_id "meta-llama/Llama-3-8B" ∧
    pyReplaceChar (pyLower "meta-llama/Llama-3-8B") '_' '-' ∈
        normalize_model_id "meta-llama/Llama-3-8B" ∧
    pyReplaceChar (pyLower (lastSegment "meta-llama/Llama-3-8B" '/'))
        '-' '_' ∈ normalize_model_id "meta-llama/Llama-3-8B" ∧
    pyReplaceChar (pyLower (lastSegment "meta-llama/Llama-3-8B" '/'))
        '_' '-' ∈ normalize_model_id "meta-llama/Llama-3-8B" :=
  normalize_model_id_contains_variants "meta-llama/Llama-3-8B" (by decide)

/-- Claim C9 counterexample: a file listing that contains
`model.safetensors` and `config.json`, contains no file ending in
`.py`, and comes with an empty description, but for which
`detect_components` returns three candidates (a `README.md` triggers
the model-card detector), not two. -/
theorem detect_components_readme_counterexample :
    ("model.safetensors" ∈
      (["model.safetensors", "config.json", "README.md"] : List String)) ∧
    ("config.json" ∈
      (["model.safetensors", "config.json", "README.md"] : List String)) ∧
    ((["model.safetensors", "config.json", "README.md"] :
        List String).any (fun f => pyEndsWith f ".py") = false) ∧
    (detect_components
        ⟨"m", ⟨none, [], ""⟩, "",
          ["model.safetensors", "config.json", "README.md"]⟩).map
        Component.name =
      ["Model parameters (Final)", "Model metadata", "Model card"] ∧
    (detect_components
        ⟨"m", ⟨none, [], ""⟩, "",
          ["model.safetensors", "config.json", "README.md"]⟩).map
        Component.name ≠
      ["Model parameters (Final)", "Model metadata"] := by
  refine ⟨by decide, by decide, by decide, by decide, by decide⟩

/-- Claim C9 (amended): for a scraped model whose file listing consists
exactly of `model.safetensors` and `config.json` and whose free-text
description is empty, `detect_components` returns exactly the two
candidates `Model parameters (Final)` and `Model metadata` — in
particular no `Model architecture` candidate. -/
theorem detect_components_two_files :
    (detect_components
        ⟨"m", ⟨none, [], ""⟩, "",
          ["model.safetensors", "config.json"]⟩).map Component.name =
      ["Model parameters (Final)", "Model metadata"] := by
  decide

/-- Claim C4: in the single-model scrape, failure (exception or
non-success status) of the free-text card or file-tree fetch leaves the
corresponding field empty while the operation still returns a populated
result; failure of the primary model-info fetch yields the empty result
and the CLI exit code 1 (otherwise 0). -/
theorem scrape_huggingface_model_error_handling :
    (∀ (env : NetEnv) (model_id : String), env.info = none →
      scrape_huggingface_model env model_id = none ∧
      scraper_exit_code env model_id = 1) ∧
    (∀ (env : NetEnv) (model_id : String) (info : ModelInfo),
      env.info = some info →
      ∃ sd, scrape_huggingface_model env model_id = some sd ∧
        scraper_exit_code env model_id = 0 ∧
        sd.model_id = model_id ∧ sd.model_info = info ∧
        ((env.card = none ∨
          (∃ st t, env.card = some (st, t) ∧ st ≠ 200)) →
          sd.model_card = "") ∧
        (∀ t, env.card = some (200, t) → sd.model_card = t) ∧
        ((env.files = none ∨
          (∃ st fs, env.files = some (st, fs) ∧ st ≠ 200)) →
          sd.repo_files = []) ∧
        (∀ fs, env.files = some (200, fs) → sd.repo_files = fs)) := by
  constructor
  · intro env model_id h
    obtain ⟨i, c, f⟩ := env
    dsimp only at h
    subst h
    exact ⟨rfl, rfl⟩
  · intro env model_id info h
    obtain ⟨i, c, f⟩ := env
    dsimp only at h
    subst h
    refine ⟨_, rfl, rfl, rfl, rfl, ?_, ?_, ?_, ?_⟩
    · rintro (hc | ⟨st, t, hc, hst⟩)
      · dsimp only at hc
        subst hc
        rfl
      · dsimp only at hc
        subst hc
        dsimp only [scrape_huggingface_model]
        rw [if_neg hst]
    · intro t hc
      dsimp only at hc
      subst hc
      dsimp only [scrape_huggingface_model]
      rw [if_pos rfl]
    · rintro (hf | ⟨st, fs, hf, hst⟩)
      · dsimp only at hf
        subst hf
        rfl
      · dsimp only at hf
        subst hf
        dsimp only [scrape_huggingface_model]
        rw [if_neg hst]
    · intro fs hf
      dsimp only at hf
      subst hf
      dsimp only [scrape_huggingface_model]
      rw [if_pos rfl]

/-- Claim C4 witness: with a successful primary call, a 404 card fetch
and a failed file-tree fetch, the scrape returns a populated result
with empty card and file list, and the CLI would exit 0; with a failed
primary call it returns the empty result and exit code 1. -/
theorem scrape_huggingface_model_error_handling_witness :
    scrape_huggingface_model ⟨none, none, none⟩ "m" = none ∧
    scraper_exit_code ⟨none, none, none⟩ "m" = 1 ∧
    (∃ sd, scrape_huggingface_model
        ⟨some ⟨none, [], ""⟩, some (404, "body"), none⟩ "m" = some sd ∧
      sd.model_card = "" ∧ sd.repo_files = []) := by
  refine ⟨(scrape_huggingface_model_error_handling.1 _ "m" rfl).1,
    (scrape_huggingface_model_error_handling.1 _ "m" rfl).2, ?_⟩
  obtain ⟨sd, h1, _, _, _, hcard, _, hfiles, _⟩ :=
    scrape_huggingface_model_error_handling.2
      ⟨some ⟨none, [], ""⟩, some (404, "body"), none⟩ "m" ⟨none, [], ""⟩ rfl
  exact ⟨sd, h1, hcard (Or.inr ⟨404, "body", rfl, by decide⟩),
    hfiles (Or.inl rfl)⟩

theorem detect_architecture_char (cl tl : String) :
    (detect_architecture cl tl ≠ "" ↔
      (pyIn "transformer" cl = true ∨ pyIn "transformer" tl = true ∨
       pyIn "diffusion" cl = true ∨ pyIn "diffusion" tl = true)) ∧
    ((pyIn "transformer" cl = true ∨ pyIn "transformer" tl = true) →
      detect_architecture cl tl =
        if pyIn "decoder" cl = true then "transformer decoder"
        else if pyIn "encoder" cl = true then "transformer encoder-decoder"
        else "transformer") ∧
    ((pyIn "transformer" cl = false ∧ pyIn "transformer" tl = false ∧
      (pyIn "diffusion" cl = true ∨ pyIn "diffusion" tl = true)) →
      detect_architecture cl tl = "diffusion") := by
  unfold detect_architecture
  by_cases h1 : pyIn "transformer" cl = true <;>
    by_cases h2 : pyIn "transformer" tl = true <;>
    by_cases h3 : pyIn "diffusion" cl = true <;>
    by_cases h4 : pyIn "diffusion" tl = true <;>
    by_cases h5 : pyIn "decoder" cl = true <;>
    by_cases h6 : pyIn "encoder" cl = true <;>
    simp [h1, h2, h3, h4, h5, h6]

/-- Claim C7: the extracted architecture field is non-empty exactly
when `transformer` or `diffusion` occurs (case-insensitively) in the
free-text description or the stringified tag list; when `transformer`
is found, the result is the decoder sub-variant, the encoder-decoder
sub-variant, or plain `transformer`, according to the sub-variant scans
of the description; a diffusion hit alone gives `diffusion`. -/
theorem extract_architecture_spec (sd : ScrapedData) (now : String)
    (chk : String → Bool) :
    ((extract_model_metadata sd now chk).architecture ≠ "" ↔
      (pyIn "transformer" (pyLower sd.model_card) = true ∨
       pyIn "transformer" (pyLower (pyStrList sd.model_info.tags)) = true ∨
       pyIn "diffusion" (pyLower sd.model_card) = true ∨
       pyIn "diffusion" (pyLower (pyStrList sd.model_info.tags)) = true)) ∧
    ((pyIn "transformer" (pyLower sd.model_card) = true ∨
      pyIn "transformer" (pyLower (pyStrList sd.model_info.tags)) = true) →
      (extract_model_metadata sd now chk).architecture =
        if pyIn "decoder" (pyLower sd.model_card) = true then
          "transformer decoder"
        else if pyIn "encoder" (pyLower sd.model_card) = true then
          "transformer encoder-decoder"
        else "transformer") ∧
    ((pyIn "transformer" (pyLower sd.model_card) = false ∧
      pyIn "transformer" (pyLower (pyStrList sd.model_info.tags)) = false ∧
      (pyIn "diffusion" (pyLower sd.model_card) = true ∨
       pyIn "diffusion" (pyLower (pyStrList sd.model_info.tags)) = true)) →
      (extract_model_metadata sd now chk).architecture = "diffusion") := by
  have he : (extract_model_metadata sd now chk).architecture =
      detect_architecture (pyLower sd.model_card)
        (pyLower (pyStrList sd.model_info.tags)) := rfl
  rw [he]
  exact detect_architecture_char _ _

/-- Claim C7 witness: a card reading `A transformer decoder model`
yields the architecture `transformer decoder`. -/
theorem extract_architecture_spec_witness :
    (extract_model_metadata
      ⟨"org/m", ⟨none, [], "2024-01-01T00:00:00"⟩,
        "A transformer decoder model", []⟩ "2024-01-01"
      (fun _ => false)).architecture = "transformer decoder" := by
  have h := (extract_architecture_spec
    ⟨"org/m", ⟨none, [], "2024-01-01T00:00:00"⟩,
      "A transformer decoder model", []⟩ "2024-01-01"
    (fun _ => false)).2.1 (Or.inl (by decide))
  rw [h]
  decide

/-- Claim C1 (amended): when some registry record's identifier set
meets the normalized variant set of the remote id, `is_model_in_mot`
reports presence and names the source file of the *first* such record
in the mapping's iteration order — in particular the file of some
matching record, and exactly R's file whenever R is the only matching
record. -/
theorem is_model_in_mot_first_match (hf : HFModel)
    (mot : List (String × MotData)) (e : String × MotData)
    (he : e ∈ mot)
    (hint : interNonempty (normalize_model_id hf.id) e.2.identifiers
      = true) :
    (is_model_in_mot hf mot).1 = true ∧
    (∃ e', mot.find? (fun p =>
        interNonempty (normalize_model_id hf.id) p.2.identifiers)
          = some e' ∧
      interNonempty (normalize_model_id hf.id) e'.2.identifiers = true ∧
      e' ∈ mot ∧ (is_model_in_mot hf mot).2 = e'.2.file) ∧
    ((∀ x ∈ mot,
        interNonempty (normalize_model_id hf.id) x.2.identifiers = true →
        x = e) →
      (is_model_in_mot hf mot).2 = e.2.file) := by
  induction mot with
  | nil => cases he
  | cons p rest ih =>
    obtain ⟨k, d⟩ := p
    by_cases hp :
        interNonempty (normalize_model_id hf.id) d.identifiers = true
    · have hres : is_model_in_mot hf ((k, d) :: rest) = (true, d.file) := by
        simp [is_model_in_mot, hp]
      refine ⟨by rw [hres], ⟨(k, d), ?_, hp, List.mem_cons_self _ _,
        by rw [hres]⟩, ?_⟩
      · rw [List.find?_cons_of_pos _ (by simpa using hp)]
      · intro huniq
        have heq : (k, d) = e := huniq (k, d) (List.mem_cons_self _ _) hp
        rw [hres, ← heq]
    · have hres : is_model_in_mot hf ((k, d) :: rest) =
          is_model_in_mot hf rest := by
        simp [is_model_in_mot, hp]
      have he' : e ∈ rest := by
        rcases List.mem_cons.mp he with rfl | h
        · exact absurd hint hp
        · exact h
      obtain ⟨h1, ⟨e', hfind, hint', hmem, hsnd⟩, huni⟩ := ih he'
      refine ⟨by rw [hres]; exact h1,
        ⟨e', ?_, hint', List.mem_cons_of_mem _ hmem,
          by rw [hres]; exact hsnd⟩, ?_⟩
      · rw [List.find?_cons_of_neg _ (by simpa using hp)]
        exact hfind
      · intro huniq
        rw [hres]
        exact huni (fun x hx hintx =>
          huniq x (List.mem_cons_of_mem _ hx) hintx)

/-- Claim C1 counterexample: with two registry records both matching
the remote id `m`, the matcher returns the first record's file
`a.yml`, not the second matching record's file `b.yml` — so the claim
"returns R's source file for every matching R" fails at R = the second
record. -/
theorem is_model_in_mot_not_second_file :
    interNonempty (normalize_model_id "m")
      (MotData.mk "" "" "" ["m"] "b.yml").identifiers = true ∧
    ("b", MotData.mk "" "" "" ["m"] "b.yml") ∈
      ([("a", MotData.mk "" "" "" ["m"] "a.yml"),
        ("b", MotData.mk "" "" "" ["m"] "b.yml")] :
          List (String × MotData)) ∧
    is_model_in_mot ⟨"m", 0, []⟩
      [("a", MotData.mk "" "" "" ["m"] "a.yml"),
       ("b", MotData.mk "" "" "" ["m"] "b.yml")] = (true, "a.yml") ∧
    (is_model_in_mot ⟨"m", 0, []⟩
      [("a", MotData.mk "" "" "" ["m"] "a.yml"),
       ("b", MotData.mk "" "" "" ["m"] "b.yml")]).2 ≠ "b.yml" := by
  refine ⟨by decide, by decide, by decide, by decide⟩

/-- Claim C1 witness: on a one-record registry matching `m`, the
matcher reports presence with that record's file. -/
theorem is_model_in_mot_first_match_witness :
    (is_model_in_mot ⟨"m", 0, []⟩
      [("a", MotData.mk "" "" "" ["m"] "a.yml")]).1 = true ∧
    (is_model_in_mot ⟨"m", 0, []⟩
      [("a", MotData.mk "" "" "" ["m"] "a.yml")]).2 = "a.yml" := by
  obtain ⟨h1, _, huni⟩ := is_model_in_mot_first_match ⟨"m", 0, []⟩
    [("a", MotData.mk "" "" "" ["m"] "a.yml")]
    ("a", MotData.mk "" "" "" ["m"] "a.yml") (by decide) (by decide)
  exact ⟨h1, huni (by decide)⟩

/-- Claim C3: `categorize_missing_models` sends each model to exactly
one priority list decided solely by download count (≥100000 high,
≥10000 medium, otherwise low; the boundary values 100000 and 10000 go
to high and medium respectively), the three priority lists are a
partition of the input, and each model lands in exactly one type
list. -/
theorem categorize_missing_models_partition (ms : List HFModel) :
    (categorize_missing_models ms).high_priority =
      ms.filter (fun m => decide (100000 ≤ m.downloads)) ∧
    (categorize_missing_models ms).medium_priority =
      ms.filter (fun m =>
        decide (10000 ≤ m.downloads ∧ m.downloads < 100000)) ∧
    (categorize_missing_models ms).low_priority =
      ms.filter (fun m => decide (m.downloads < 10000)) ∧
    ((categorize_missing_models ms).high_priority ++
      (categorize_missing_models ms).medium_priority ++
      (categorize_missing_models ms).low_priority).Perm ms ∧
    (∀ m ∈ ms, m.downloads = 100000 →
      m ∈ (categorize_missing_models ms).high_priority) ∧
    (∀ m ∈ ms, m.downloads = 10000 →
      m ∈ (categorize_missing_models ms).medium_priority) ∧
    (∀ m ∈ ms, ∃ l, (modelTypeOf m, l) ∈
      (categorize_missing_models ms).by_type ∧ m ∈ l) ∧
    (∀ t l, (t, l) ∈ (categorize_missing_models ms).by_type →
      l = ms.filter (fun m => decide (modelTypeOf m = t)) ∧
      ∀ m ∈ ms, (m ∈ l ↔ modelTypeOf m = t)) := by
  have hh : (categorize_missing_models ms).high_priority =
      ms.filter (fun m => decide (100000 ≤ m.downloads)) := by
    have := foldl_catStep_high ms ⟨[], [], [], []⟩
    simpa [categorize_missing_models] using this
  have hm : (categorize_missing_models ms).medium_priority =
      ms.filter (fun m =>
        decide (10000 ≤ m.downloads ∧ m.downloads < 100000)) := by
    have := foldl_catStep_medium ms ⟨[], [], [], []⟩
    simpa [categorize_missing_models] using this
  have hl : (categorize_missing_models ms).low_priority =
      ms.filter (fun m => decide (m.downloads < 10000)) := by
    have := foldl_catStep_low ms ⟨[], [], [], []⟩
    simpa [categorize_missing_models] using this
  have hget : ∀ t, assocGet (categorize_missing_models ms).by_type t =
      ms.filter (fun m => decide (modelTypeOf m = t)) := by
    intro t
    have := foldl_catStep_assocGet ms ⟨[], [], [], []⟩ t
    simpa [categorize_missing_models, assocGet] using this
  have hnd : ((categorize_missing_models ms).by_type.map Prod.fst).Nodup := by
    have := foldl_catStep_keys_nodup ms ⟨[], [], [], []⟩ (by simp)
    simpa [categorize_missing_models] using this
  have hperm : ((categorize_missing_models ms).high_priority ++
      (categorize_missing_models ms).medium_priority ++
      (categorize_missing_models ms).low_priority).Perm ms := by
    rw [hh, hm, hl]
    have p1 := List.filter_append_perm
      (fun m => decide (100000 ≤ m.downloads)) ms
    have p2 := List.filter_append_perm
      (fun m => decide (10000 ≤ m.downloads))
      (ms.filter (fun m => !decide (100000 ≤ m.downloads)))
    rw [List.filter_filter, List.filter_filter] at p2
    have e1 : ms.filter
        (fun a => decide (10000 ≤ a.downloads) &&
          !decide (100000 ≤ a.downloads)) =
        ms.filter (fun m =>
          decide (10000 ≤ m.downloads ∧ m.downloads < 100000)) := by
      apply List.filter_congr
      intro m _
      by_cases h1 : 10000 ≤ m.downloads <;>
        by_cases h2 : 100000 ≤ m.downloads <;>
        simp [h1, h2] <;> try omega
    have e2 : ms.filter
        (fun a => !decide (10000 ≤ a.downloads) &&
          !decide (100000 ≤ a.downloads)) =
        ms.filter (fun m => decide (m.downloads < 10000)) := by
      apply List.filter_congr
      intro m _
      by_cases h1 : 10000 ≤ m.downloads <;>
        by_cases h2 : 100000 ≤ m.downloads <;>
        simp [h1, h2] <;> try omega
    rw [e1, e2] at p2
    rw [List.append_assoc]
    exact (List.Perm.append_left _ p2).trans p1
  refine ⟨hh, hm, hl, hperm, ?_, ?_, ?_, ?_⟩
  · intro m hm' hd
    rw [hh]
    exact List.mem_filter.mpr ⟨hm', by simp [hd]⟩
  · intro m hm' hd
    rw [hm]
    refine List.mem_filter.mpr ⟨hm', by simp [hd]⟩
  · intro m hm'
    have hkeys : modelTypeOf m ∈
        (categorize_missing_models ms).by_type.map Prod.fst := by
      have hk := foldl_catStep_keys ms ⟨[], [], [], []⟩
      have hmem := typeOf_mem_foldl_firstOccStep ms m hm' []
      simpa [categorize_missing_models, hk] using hmem
    refine ⟨assocGet (categorize_missing_models ms).by_type (modelTypeOf m),
      mem_of_assocGet _ _ hkeys, ?_⟩
    rw [hget]
    exact List.mem_filter.mpr ⟨hm', by simp⟩
  · intro t l hmem
    have hl' : l = ms.filter (fun m => decide (modelTypeOf m = t)) := by
      rw [← hget t]
      exact (assocGet_of_mem _ _ _ hnd hmem).symm
    refine ⟨hl', ?_⟩
    intro m hm'
    rw [hl']
    constructor
    · intro hmf
      have := (List.mem_filter.mp hmf).2
      simpa using this
    · intro ht
      exact List.mem_filter.mpr ⟨hm', by simp [ht]⟩

/-- Claim C3 witness: on a three-model list hitting both boundaries,
the buckets are as claimed. -/
theorem categorize_missing_models_partition_witness :
    (categorize_missing_models
      [⟨"a", 100000, []⟩, ⟨"b", 10000, ["text-generation"]⟩,
       ⟨"c", 9999, []⟩]).high_priority = [⟨"a", 100000, []⟩] ∧
    (categorize_missing_models
      [⟨"a", 100000, []⟩, ⟨"b", 10000, ["text-generation"]⟩,
       ⟨"c", 9999, []⟩]).medium_priority =
      [⟨"b", 10000, ["text-generation"]⟩] ∧
    (categorize_missing_models
      [⟨"a", 100000, []⟩, ⟨"b", 10000, ["text-generation"]⟩,
       ⟨"c", 9999, []⟩]).low_priority = [⟨"c", 9999, []⟩] := by
  obtain ⟨hh, hm, hl, -⟩ := categorize_missing_models_partition
    [⟨"a", 100000, []⟩, ⟨"b", 10000, ["text-generation"]⟩,
     ⟨"c", 9999, []⟩]
  exact ⟨hh.trans (by decide), hm.trans (by decide), hl.trans (by decide)⟩

/-- Claim C8: report generation is deterministic — equal inputs give
byte-identical text — and the sorted lists embedded in the report are:
per-type counts in weakly descending count order with ties kept in
`by_type` insertion order (which is first-occurrence order of the
types), and the top-50 high-priority and top-20 medium-priority
listings in weakly descending download order with ties keeping the
original list order (stated as: the stable sort leaves every
equal-downloads class exactly as in the input, and permutes the
input). -/
theorem generate_report_deterministic (missing : List HFModel)
    (mot : List (String × MotData)) :
    (generate_report missing mot = generate_report missing mot) ∧
    List.Pairwise
      (fun p q : String × List HFModel => q.2.length ≤ p.2.length)
      (sortedTypeCounts (categorize_missing_models missing)) ∧
    (∀ n, (sortedTypeCounts (categorize_missing_models missing)).filter
        (fun p => p.2.length == n) =
      (categorize_missing_models missing).by_type.filter
        (fun p => p.2.length == n)) ∧
    (sortedTypeCounts (categorize_missing_models missing)).Perm
      (categorize_missing_models missing).by_type ∧
    ((categorize_missing_models missing).by_type.map Prod.fst =
      missing.foldl firstOccStep []) ∧
    List.Pairwise (fun a b : HFModel => b.downloads ≤ a.downloads)
      ((sortedHigh (categorize_missing_models missing)).take 50) ∧
    (∀ n, (sortedHigh (categorize_missing_models missing)).filter
        (fun m => m.downloads == n) =
      (categorize_missing_models missing).high_priority.filter
        (fun m => m.downloads == n)) ∧
    (sortedHigh (categorize_missing_models missing)).Perm
      (categorize_missing_models missing).high_priority ∧
    List.Pairwise (fun a b : HFModel => b.downloads ≤ a.downloads)
      ((sortedMedium (categorize_missing_models missing)).take 20) ∧
    (∀ n, (sortedMedium (categorize_missing_models missing)).filter
        (fun m => m.downloads == n) =
      (categorize_missing_models missing).medium_priority.filter
        (fun m => m.downloads == n)) ∧
    (sortedMedium (categorize_missing_models missing)).Perm
      (categorize_missing_models missing).medium_priority := by
  refine ⟨rfl, ?_, ?_, ?_, ?_, ?_, ?_, ?_, ?_, ?_, ?_⟩
  · exact pySortDesc_pairwise _ _
  · intro n
    exact pySortDesc_filter
      (fun p : String × List HFModel => p.2.length) n _
  · exact pySortDesc_perm _ _
  · have := foldl_catStep_keys missing ⟨[], [], [], []⟩
    simpa [categorize_missing_models] using this
  · exact List.Pairwise.sublist (List.take_sublist _ _)
      (pySortDesc_pairwise _ _)
  · intro n
    exact pySortDesc_filter (fun m : HFModel => m.downloads) n _
  · exact pySortDesc_perm _ _
  · exact List.Pairwise.sublist (List.take_sublist _ _)
      (pySortDesc_pairwise _ _)
  · intro n
    exact pySortDesc_filter (fun m : HFModel => m.downloads) n _
  · exact pySortDesc_perm _ _

/-! ### Helper lemmas: counting serialized lines -/

theorem count_repoLineOpt_zero (md : Metadata) (x : String)
    (h : ∀ r : String, x ≠ repositoryLine r) :
    List.count x (repoLineOpt md) = 0 := by
  unfold repoLineOpt
  cases md.repository with
  | none => rfl
  | some r =>
    dsimp only
    split_ifs
    · rw [List.count_cons_of_ne (h r), List.count_nil]
    · rfl

theorem count_hfLineOpt_zero (md : Metadata) (x : String)
    (h : x ≠ huggingfaceLine md) :
    List.count x (hfLineOpt md) = 0 := by
  unfold hfLineOpt
  split_ifs
  · rw [List.count_cons_of_ne h, List.count_nil]
  · rfl

theorem count_compBlock_zero (x : String) (c : Component)
    (h1 : x ≠ "    -")
    (h2 : ∀ t, x ≠ "      name: \x27" ++ t)
    (h3 : ∀ t, x ≠ "      description: \"" ++ t)
    (h4 : ∀ t, x ≠ "      license: \x27" ++ t)
    (h5 : x ≠ "      license: unlicensed") :
    List.count x (compBlock c) = 0 := by
  unfold compBlock
  rw [List.count_cons_of_ne h1,
      List.count_cons_of_ne (h2 (c.name ++ "\x27")),
      List.count_cons_of_ne (h3 (c.description ++ "\""))]
  unfold licenseLine
  dsimp only
  split_ifs
  · rw [List.count_cons_of_ne (h4 _), List.count_nil]
  · rw [List.count_cons_of_ne h5, List.count_nil]

theorem count_componentLines_zero (x : String) (comps : List Component)
    (h1 : x ≠ "    -")
    (h2 : ∀ t, x ≠ "      name: \x27" ++ t)
    (h3 : ∀ t, x ≠ "      description: \"" ++ t)
    (h4 : ∀ t, x ≠ "      license: \x27" ++ t)
    (h5 : x ≠ "      license: unlicensed") :
    List.count x (componentLines comps) = 0 := by
  induction comps with
  | nil => rfl
  | cons c cs ih =>
    have hstep : componentLines (c :: cs) =
        compBlock c ++ componentLines cs := by
      simp [componentLines]
    rw [hstep, List.count_append,
        count_compBlock_zero x c h1 h2 h3 h4 h5, ih]

theorem count_release_nameLine (md : Metadata) (comps : List Component) :
    List.count (nameLine md) (releaseLines md comps) = 1 := by
  unfold releaseLines nameLine versionLine dateLine typeLine
    architectureLine originLine producerLine
  simp only [List.count_append]
  rw [List.count_cons_of_ne
        (strKeyNeLit "  name: " "release:" md.name (by decide)),
      List.count_cons_self,
      List.count_cons_of_ne (strKeyNe "  name: " "  version: \x27"
        md.name (md.version ++ "\x27") (by decide)),
      List.count_cons_of_ne (strKeyNe "  name: " "  date: \x27"
        md.name (md.date ++ "\x27") (by decide)),
      List.count_cons_of_ne (strKeyNeLit "  name: "
        "  license: \x7b  \x7d" md.name (by decide)),
      List.count_cons_of_ne (strKeyNe "  name: " "  type: \x27"
        md.name (md.type ++ "\x27") (by decide)),
      List.count_cons_of_ne (strKeyNe "  name: " "  architecture: \x27"
        md.name (md.architecture ++ "\x27") (by decide)),
      List.count_cons_of_ne (strKeyNe "  name: " "  origin: "
        md.name md.origin (by decide)),
      List.count_cons_of_ne (strKeyNe "  name: " "  producer: \x27"
        md.name (md.producer ++ "\x27") (by decide)),
      List.count_cons_of_ne (strKeyNeLit "  name: "
        "  contact: \x27\x27" md.name (by decide)),
      count_repoLineOpt_zero md _ (fun r => strKeyNe "  name: "
        "  repository: \x27" md.name (r ++ "\x27") (by decide)),
      count_hfLineOpt_zero md _ (strKeyNe "  name: "
        "  huggingface: \x27" md.name (md.huggingface ++ "\x27")
        (by decide)),
      List.count_cons_of_ne (strKeyNeLit "  name: " "  components:"
        md.name (by decide)),
      count_componentLines_zero _ comps
        (strKeyNeLit "  name: " "    -" md.name (by decide))
        (fun t => strKeyNe "  name: " "      name: \x27" md.name t
          (by decide))
        (fun t => strKeyNe "  name: " "      description: \"" md.name t
          (by decide))
        (fun t => strKeyNe "  name: " "      license: \x27" md.name t
          (by decide))
        (strKeyNeLit "  name: " "      license: unlicensed" md.name
          (by decide))]
  simp


theorem count_release_versionLine (md : Metadata) (comps : List Component) :
    List.count (versionLine md) (releaseLines md comps) = 1 := by
  unfold releaseLines nameLine versionLine dateLine typeLine
    architectureLine originLine producerLine
  simp only [List.count_append]
  rw [List.count_cons_of_ne (strKeyNeLit "  version: \x27" "release:" (md.version ++ "\x27") (by decide)),
      List.count_cons_of_ne (strKeyNe "  version: \x27" "  name: " (md.version ++ "\x27") md.name (by decide)),
      List.count_cons_self,
      List.count_cons_of_ne (strKeyNe "  version: \x27" "  date: \x27" (md.version ++ "\x27") (md.date ++ "\x27") (by decide)),
      List.count_cons_of_ne (strKeyNeLit "  version: \x27" "  license: \x7b  \x7d" (md.version ++ "\x27") (by decide)),
      List.count_cons_of_ne (strKeyNe "  version: \x27" "  type: \x27" (md.version ++ "\x27") (md.type ++ "\x27") (by decide)),
      List.count_cons_of_ne (strKeyNe "  version: \x27" "  architecture: \x27" (md.version ++ "\x27") (md.architecture ++ "\x27") (by decide)),
      List.count_cons_of_ne (strKeyNe "  version: \x27" "  origin: " (md.version ++ "\x27") md.origin (by decide)),
      List.count_cons_of_ne (strKeyNe "  version: \x27" "  producer: \x27" (md.version ++ "\x27") (md.producer ++ "\x27") (by decide)),
      List.count_cons_of_ne (strKeyNeLit "  version: \x27" "  contact: \x27\x27" (md.version ++ "\x27") (by decide)),
      count_repoLineOpt_zero md _ (fun r => strKeyNe "  version: \x27" "  repository: \x27" (md.version ++ "\x27") (r ++ "\x27") (by decide)),
      count_hfLineOpt_zero md _ (strKeyNe "  version: \x27" "  huggingface: \x27" (md.version ++ "\x27") (md.huggingface ++ "\x27") (by decide)),
      List.count_cons_of_ne (strKeyNeLit "  version: \x27" "  components:" (md.version ++ "\x27") (by decide)),
      count_componentLines_zero _ comps
        (strKeyNeLit "  version: \x27" "    -" (md.version ++ "\x27") (by decide))
        (fun t => strKeyNe "  version: \x27" "      name: \x27" (md.version ++ "\x27") t (by decide))
        (fun t => strKeyNe "  version: \x27" "      description: \"" (md.version ++ "\x27") t (by decide))
        (fun t => strKeyNe "  version: \x27" "      license: \x27" (md.version ++ "\x27") t (by decide))
        (strKeyNeLit "  version: \x27" "      license: unlicensed" (md.version ++ "\x27") (by decide))]
  simp

theorem count_release_dateLine (md : Metadata) (comps : List Component) :
    List.count (dateLine md) (releaseLines md comps) = 1 := by
  unfold releaseLines nameLine versionLine dateLine typeLine
    architectureLine originLine producerLine
  simp only [List.count_append]
  rw [List.count_cons_of_ne (strKeyNeLit "  date: \x27" "release:" (md.date ++ "\x27") (by decide)),
      List.count_cons_of_ne (strKeyNe "  date: \x27" "  name: " (md.date ++ "\x27") md.name (by decide)),
      List.count_cons_of_ne (strKeyNe "  date: \x27" "  version: \x27" (md.date ++ "\x27") (md.version ++ "\x27") (by decide)),
      List.count_cons_self,
      List.count_cons_of_ne (strKeyNeLit "  date: \x27" "  license: \x7b  \x7d" (md.date ++ "\x27") (by decide)),
      List.count_cons_of_ne (strKeyNe "  date: \x27" "  type: \x27" (md.date ++ "\x27") (md.type ++ "\x27") (by decide)),
      List.count_cons_of_ne (strKeyNe "  date: \x27" "  architecture: \x27" (md.date ++ "\x27") (md.architecture ++ "\x27") (by decide)),
      List.count_cons_of_ne (strKeyNe "  date: \x27" "  origin: " (md.date ++ "\x27") md.origin (by decide)),
      List.count_cons_of_ne (strKeyNe "  date: \x27" "  producer: \x27" (md.date ++ "\x27") (md.producer ++ "\x27") (by decide)),
      List.count_cons_of_ne (strKeyNeLit "  date: \x27" "  contact: \x27\x27" (md.date ++ "\x27") (by decide)),
      count_repoLineOpt_zero md _ (fun r => strKeyNe "  date: \x27" "  repository: \x27" (md.date ++ "\x27") (r ++ "\x27") (by decide)),
      count_hfLineOpt_zero md _ (strKeyNe "  date: \x27" "  huggingface: \x27" (md.date ++ "\x27") (md.huggingface ++ "\x27") (by decide)),
      List.count_cons_of_ne (strKeyNeLit "  date: \x27" "  components:" (md.date ++ "\x27") (by decide)),
      count_componentLines_zero _ comps
        (strKeyNeLit "  date: \x27" "    -" (md.date ++ "\x27") (by decide))
        (fun t => strKeyNe "  date: \x27" "      name: \x27" (md.date ++ "\x27") t (by decide))
        (fun t => strKeyNe "  date: \x27" "      description: \"" (md.date ++ "\x27") t (by decide))
        (fun t => strKeyNe "  date: \x27" "      license: \x27" (md.date ++ "\x27") t (by decide))
        (strKeyNeLit "  date: \x27" "      license: unlicensed" (md.date ++ "\x27") (by decide))]
  simp

theorem count_release_typeLine (md : Metadata) (comps : List Component) :
    List.count (typeLine md) (releaseLines md comps) = 1 := by
  unfold releaseLines nameLine versionLine dateLine typeLine
    architectureLine originLine producerLine
  simp only [List.count_append]
  rw [List.count_cons_of_ne (strKeyNeLit "  type: \x27" "release:" (md.type ++ "\x27") (by decide)),
      List.count_cons_of_ne (strKeyNe "  type: \x27" "  name: " (md.type ++ "\x27") md.name (by decide)),
      List.count_cons_of_ne (strKeyNe "  type: \x27" "  version: \x27" (md.type ++ "\x27") (md.version ++ "\x27") (by decide)),
      List.count_cons_of_ne (strKeyNe "  type: \x27" "  date: \x27" (md.type ++ "\x27") (md.date ++ "\x27") (by decide)),
      List.count_cons_of_ne (strKeyNeLit "  type: \x27" "  license: \x7b  \x7d" (md.type ++ "\x27") (by decide)),
      List.count_cons_self,
      List.count_cons_of_ne (strKeyNe "  type: \x27" "  architecture: \x27" (md.type ++ "\x27") (md.architecture ++ "\x27") (by decide)),
      List.count_cons_of_ne (strKeyNe "  type: \x27" "  origin: " (md.type ++ "\x27") md.origin (by decide)),
      List.count_cons_of_ne (strKeyNe "  type: \x27" "  producer: \x27" (md.type ++ "\x27") (md.producer ++ "\x27") (by decide)),
      List.count_cons_of_ne (strKeyNeLit "  type: \x27" "  contact: \x27\x27" (md.type ++ "\x27") (by decide)),
      count_repoLineOpt_zero md _ (fun r => strKeyNe "  type: \x27" "  repository: \x27" (md.type ++ "\x27") (r ++ "\x27") (by decide)),
      count_hfLineOpt_zero md _ (strKeyNe "  type: \x27" "  huggingface: \x27" (md.type ++ "\x27") (md.huggingface ++ "\x27") (by decide)),
      List.count_cons_of_ne (strKeyNeLit "  type: \x27" "  components:" (md.type ++ "\x27") (by decide)),
      count_componentLines_zero _ comps
        (strKeyNeLit "  type: \x27" "    -" (md.type ++ "\x27") (by decide))
        (fun t => strKeyNe "  type: \x27" "      name: \x27" (md.type ++ "\x27") t (by decide))
        (fun t => strKeyNe "  type: \x27" "      description: \"" (md.type ++ "\x27") t (by decide))
        (fun t => strKeyNe "  type: \x27" "      license: \x27" (md.type ++ "\x27") t (by decide))
        (strKeyNeLit "  type: \x27" "      license: unlicensed" (md.type ++ "\x27") (by decide))]
  simp

theorem count_release_architectureLine (md : Metadata) (comps : List Component) :
    List.count (architectureLine md) (releaseLines md comps) = 1 := by
  unfold releaseLines nameLine versionLine dateLine typeLine
    architectureLine originLine producerLine
  simp only [List.count_append]
  rw [List.count_cons_of_ne (strKeyNeLit "  architecture: \x27" "release:" (md.architecture ++ "\x27") (by decide)),
      List.count_cons_of_ne (strKeyNe "  architecture: \x27" "  name: " (md.architecture ++ "\x27") md.name (by decide)),
      List.count_cons_of_ne (strKeyNe "  architecture: \x27" "  version: \x27" (md.architecture ++ "\x27") (md.version ++ "\x27") (by decide)),
      List.count_cons_of_ne (strKeyNe "  architecture: \x27" "  date: \x27" (md.architecture ++ "\x27") (md.date ++ "\x27") (by decide)),
      List.count_cons_of_ne (strKeyNeLit "  architecture: \x27" "  license: \x7b  \x7d" (md.architecture ++ "\x27") (by decide)),
      List.count_cons_of_ne (strKeyNe "  architecture: \x27" "  type: \x27" (md.architecture ++ "\x27") (md.type ++ "\x27") (by decide)),
      List.count_cons_self,
      List.count_cons_of_ne (strKeyNe "  architecture: \x27" "  origin: " (md.architecture ++ "\x27") md.origin (by decide)),
      List.count_cons_of_ne (strKeyNe "  architecture: \x27" "  producer: \x27" (md.architecture ++ "\x27") (md.producer ++ "\x27") (by decide)),
      List.count_cons_of_ne (strKeyNeLit "  architecture: \x27" "  contact: \x27\x27" (md.architecture ++ "\x27") (by decide)),
      count_repoLineOpt_zero md _ (fun r => strKeyNe "  architecture: \x27" "  repository: \x27" (md.architecture ++ "\x27") (r ++ "\x27") (by decide)),
      count_hfLineOpt_zero md _ (strKeyNe "  architecture: \x27" "  huggingface: \x27" (md.architecture ++ "\x27") (md.huggingface ++ "\x27") (by decide)),
      List.count_cons_of_ne (strKeyNeLit "  architecture: \x27" "  components:" (md.architecture ++ "\x27") (by decide)),
      count_componentLines_zero _ comps
        (strKeyNeLit "  architecture: \x27" "    -" (md.architecture ++ "\x27") (by decide))
        (fun t => strKeyNe "  architecture: \x27" "      name: \x27" (md.architecture ++ "\x27") t (by decide))
        (fun t => strKeyNe "  architecture: \x27" "      description: \"" (md.architecture ++ "\x27") t (by decide))
        (fun t => strKeyNe "  architecture: \x27" "      license: \x27" (md.architecture ++ "\x27") t (by decide))
        (strKeyNeLit "  architecture: \x27" "      license: unlicensed" (md.architecture ++ "\x27") (by decide))]
  simp

theorem count_release_originLine (md : Metadata) (comps : List Component) :
    List.count (originLine md) (releaseLines md comps) = 1 := by
  unfold releaseLines nameLine versionLine dateLine typeLine
    architectureLine originLine producerLine
  simp only [List.count_append]
  rw [List.count_cons_of_ne (strKeyNeLit "  origin: " "release:" md.origin (by decide)),
      List.count_cons_of_ne (strKeyNe "  origin: " "  name: " md.origin md.name (by decide)),
      List.count_cons_of_ne (strKeyNe "  origin: " "  version: \x27" md.origin (md.version ++ "\x27") (by decide)),
      List.count_cons_of_ne (strKeyNe "  origin: " "  date: \x27" md.origin (md.date ++ "\x27") (by decide)),
      List.count_cons_of_ne (strKeyNeLit "  origin: " "  license: \x7b  \x7d" md.origin (by decide)),
      List.count_cons_of_ne (strKeyNe "  origin: " "  type: \x27" md.origin (md.type ++ "\x27") (by decide)),
      List.count_cons_of_ne (strKeyNe "  origin: " "  architecture: \x27" md.origin (md.architecture ++ "\x27") (by decide)),
      List.count_cons_self,
      List.count_cons_of_ne (strKeyNe "  origin: " "  producer: \x27" md.origin (md.producer ++ "\x27") (by decide)),
      List.count_cons_of_ne (strKeyNeLit "  origin: " "  contact: \x27\x27" md.origin (by decide)),
      count_repoLineOpt_zero md _ (fun r => strKeyNe "  origin: " "  repository: \x27" md.origin (r ++ "\x27") (by decide)),
      count_hfLineOpt_zero md _ (strKeyNe "  origin: " "  huggingface: \x27" md.origin (md.huggingface ++ "\x27") (by decide)),
      List.count_cons_of_ne (strKeyNeLit "  origin: " "  components:" md.origin (by decide)),
      count_componentLines_zero _ comps
        (strKeyNeLit "  origin: " "    -" md.origin (by decide))
        (fun t => strKeyNe "  origin: " "      name: \x27" md.origin t (by decide))
        (fun t => strKeyNe "  origin: " "      description: \"" md.origin t (by decide))
        (fun t => strKeyNe "  origin: " "      license: \x27" md.origin t (by decide))
        (strKeyNeLit "  origin: " "      license: unlicensed" md.origin (by decide))]
  simp

theorem count_release_producerLine (md : Metadata) (comps : List Component) :
    List.count (producerLine md) (releaseLines md comps) = 1 := by
  unfold releaseLines nameLine versionLine dateLine typeLine
    architectureLine originLine producerLine
  simp only [List.count_append]
  rw [List.count_cons_of_ne (strKeyNeLit "  producer: \x27" "release:" (md.producer ++ "\x27") (by decide)),
      List.count_cons_of_ne (strKeyNe "  producer: \x27" "  name: " (md.producer ++ "\x27") md.name (by decide)),
      List.count_cons_of_ne (strKeyNe "  producer: \x27" "  version: \x27" (md.producer ++ "\x27") (md.version ++ "\x27") (by decide)),
      List.count_cons_of_ne (strKeyNe "  producer: \x27" "  date: \x27" (md.producer ++ "\x27") (md.date ++ "\x27") (by decide)),
      List.count_cons_of_ne (strKeyNeLit "  producer: \x27" "  license: \x7b  \x7d" (md.producer ++ "\x27") (by decide)),
      List.count_cons_of_ne (strKeyNe "  producer: \x27" "  type: \x27" (md.producer ++ "\x27") (md.type ++ "\x27") (by decide)),
      List.count_cons_of_ne (strKeyNe "  producer: \x27" "  architecture: \x27" (md.producer ++ "\x27") (md.architecture ++ "\x27") (by decide)),
      List.count_cons_of_ne (strKeyNe "  producer: \x27" "  origin: " (md.producer ++ "\x27") md.origin (by decide)),
      List.count_cons_self,
      List.count_cons_of_ne (strKeyNeLit "  producer: \x27" "  contact: \x27\x27" (md.producer ++ "\x27") (by decide)),
      count_repoLineOpt_zero md _ (fun r => strKeyNe "  producer: \x27" "  repository: \x27" (md.producer ++ "\x27") (r ++ "\x27") (by decide)),
      count_hfLineOpt_zero md _ (strKeyNe "  producer: \x27" "  huggingface: \x27" (md.producer ++ "\x27") (md.huggingface ++ "\x27") (by decide)),
      List.count_cons_of_ne (strKeyNeLit "  producer: \x27" "  components:" (md.producer ++ "\x27") (by decide)),
      count_componentLines_zero _ comps
        (strKeyNeLit "  producer: \x27" "    -" (md.producer ++ "\x27") (by decide))
        (fun t => strKeyNe "  producer: \x27" "      name: \x27" (md.producer ++ "\x27") t (by decide))
        (fun t => strKeyNe "  producer: \x27" "      description: \"" (md.producer ++ "\x27") t (by decide))
        (fun t => strKeyNe "  producer: \x27" "      license: \x27" (md.producer ++ "\x27") t (by decide))
        (strKeyNeLit "  producer: \x27" "      license: unlicensed" (md.producer ++ "\x27") (by decide))]
  simp

theorem count_release_repositoryLine (md : Metadata)
    (comps : List Component) (r : String) (hr : md.repository = some r)
    (hrne : r ≠ "") :
    List.count (repositoryLine r) (releaseLines md comps) = 1 := by
  have hrepo : List.count (repositoryLine r) (repoLineOpt md) = 1 := by
    unfold repoLineOpt
    rw [hr]
    dsimp only
    rw [if_pos hrne, List.count_cons_self, List.count_nil]
  unfold repositoryLine at hrepo ⊢
  unfold releaseLines nameLine versionLine dateLine typeLine
    architectureLine originLine producerLine
  simp only [List.count_append]
  rw [List.count_cons_of_ne (strKeyNeLit "  repository: \x27" "release:"
        (r ++ "\x27") (by decide)),
      List.count_cons_of_ne (strKeyNe "  repository: \x27" "  name: "
        (r ++ "\x27") md.name (by decide)),
      List.count_cons_of_ne (strKeyNe "  repository: \x27"
        "  version: \x27" (r ++ "\x27") (md.version ++ "\x27")
        (by decide)),
      List.count_cons_of_ne (strKeyNe "  repository: \x27" "  date: \x27"
        (r ++ "\x27") (md.date ++ "\x27") (by decide)),
      List.count_cons_of_ne (strKeyNeLit "  repository: \x27"
        "  license: \x7b  \x7d" (r ++ "\x27") (by decide)),
      List.count_cons_of_ne (strKeyNe "  repository: \x27" "  type: \x27"
        (r ++ "\x27") (md.type ++ "\x27") (by decide)),
      List.count_cons_of_ne (strKeyNe "  repository: \x27"
        "  architecture: \x27" (r ++ "\x27") (md.architecture ++ "\x27")
        (by decide)),
      List.count_cons_of_ne (strKeyNe "  repository: \x27" "  origin: "
        (r ++ "\x27") md.origin (by decide)),
      List.count_cons_of_ne (strKeyNe "  repository: \x27"
        "  producer: \x27" (r ++ "\x27") (md.producer ++ "\x27")
        (by decide)),
      List.count_cons_of_ne (strKeyNeLit "  repository: \x27"
        "  contact: \x27\x27" (r ++ "\x27") (by decide)),
      hrepo,
      count_hfLineOpt_zero md _ (strKeyNe "  repository: \x27"
        "  huggingface: \x27" (r ++ "\x27") (md.huggingface ++ "\x27")
        (by decide)),
      List.count_cons_of_ne (strKeyNeLit "  repository: \x27"
        "  components:" (r ++ "\x27") (by decide)),
      count_componentLines_zero _ comps
        (strKeyNeLit "  repository: \x27" "    -" (r ++ "\x27")
          (by decide))
        (fun t => strKeyNe "  repository: \x27" "      name: \x27"
          (r ++ "\x27") t (by decide))
        (fun t => strKeyNe "  repository: \x27" "      description: \""
          (r ++ "\x27") t (by decide))
        (fun t => strKeyNe "  repository: \x27" "      license: \x27"
          (r ++ "\x27") t (by decide))
        (strKeyNeLit "  repository: \x27" "      license: unlicensed"
          (r ++ "\x27") (by decide))]
  simp

theorem count_release_huggingfaceLine (md : Metadata)
    (comps : List Component) (hhf : md.huggingface ≠ "") :
    List.count (huggingfaceLine md) (releaseLines md comps) = 1 := by
  have hhfl : List.count (huggingfaceLine md) (hfLineOpt md) = 1 := by
    unfold hfLineOpt
    rw [if_pos hhf, List.count_cons_self, List.count_nil]
  unfold huggingfaceLine at hhfl ⊢
  unfold releaseLines nameLine versionLine dateLine typeLine
    architectureLine originLine producerLine
  simp only [List.count_append]
  rw [List.count_cons_of_ne (strKeyNeLit "  huggingface: \x27"
        "release:" (md.huggingface ++ "\x27") (by decide)),
      List.count_cons_of_ne (strKeyNe "  huggingface: \x27" "  name: "
        (md.huggingface ++ "\x27") md.name (by decide)),
      List.count_cons_of_ne (strKeyNe "  huggingface: \x27"
        "  version: \x27" (md.huggingface ++ "\x27")
        (md.version ++ "\x27") (by decide)),
      List.count_cons_of_ne (strKeyNe "  huggingface: \x27"
        "  date: \x27" (md.huggingface ++ "\x27") (md.date ++ "\x27")
        (by decide)),
      List.count_cons_of_ne (strKeyNeLit "  huggingface: \x27"
        "  license: \x7b  \x7d" (md.huggingface ++ "\x27") (by decide)),
      List.count_cons_of_ne (strKeyNe "  huggingface: \x27"
        "  type: \x27" (md.huggingface ++ "\x27") (md.type ++ "\x27")
        (by decide)),
      List.count_cons_of_ne (strKeyNe "  huggingface: \x27"
        "  architecture: \x27" (md.huggingface ++ "\x27")
        (md.architecture ++ "\x27") (by decide)),
      List.count_cons_of_ne (strKeyNe "  huggingface: \x27" "  origin: "
        (md.huggingface ++ "\x27") md.origin (by decide)),
      List.count_cons_of_ne (strKeyNe "  huggingface: \x27"
        "  producer: \x27" (md.huggingface ++ "\x27")
        (md.producer ++ "\x27") (by decide)),
      List.count_cons_of_ne (strKeyNeLit "  huggingface: \x27"
        "  contact: \x27\x27" (md.huggingface ++ "\x27") (by decide)),
      count_repoLineOpt_zero md _ (fun r => strKeyNe
        "  huggingface: \x27" "  repository: \x27"
        (md.huggingface ++ "\x27") (r ++ "\x27") (by decide)),
      hhfl,
      List.count_cons_of_ne (strKeyNeLit "  huggingface: \x27"
        "  components:" (md.huggingface ++ "\x27") (by decide)),
      count_componentLines_zero _ comps
        (strKeyNeLit "  huggingface: \x27" "    -"
          (md.huggingface ++ "\x27") (by decide))
        (fun t => strKeyNe "  huggingface: \x27" "      name: \x27"
          (md.huggingface ++ "\x27") t (by decide))
        (fun t => strKeyNe "  huggingface: \x27" "      description: \""
          (md.huggingface ++ "\x27") t (by decide))
        (fun t => strKeyNe "  huggingface: \x27" "      license: \x27"
          (md.huggingface ++ "\x27") t (by decide))
        (strKeyNeLit "  huggingface: \x27" "      license: unlicensed"
          (md.huggingface ++ "\x27") (by decide))]
  simp

theorem no_repository_confidence_line (md : Metadata)
    (comps : List Component) :
    ∀ l ∈ releaseLines md comps,
      "  repository_confidence".data.isPrefixOf l.data = false := by
  intro l hl
  unfold releaseLines at hl
  rcases List.mem_append.mp hl with hl | hcl
  · rcases List.mem_append.mp hl with hl | hcm
    · rcases List.mem_append.mp hl with hl | hhf
      · rcases List.mem_append.mp hl with hl | hrepo
        · simp only [List.mem_cons, List.not_mem_nil, or_false] at hl
          rcases hl with rfl | rfl | rfl | rfl | rfl | rfl | rfl | rfl
            | rfl | rfl
          · exact isPrefixOf_lit_eq_false _ _ (by decide)
          · unfold nameLine
            rw [String.data_append]
            exact isPrefixOf_append_eq_false _ _ (by decide) _
          · unfold versionLine
            rw [String.data_append]
            exact isPrefixOf_append_eq_false _ _ (by decide) _
          · unfold dateLine
            rw [String.data_append]
            exact isPrefixOf_append_eq_false _ _ (by decide) _
          · exact isPrefixOf_lit_eq_false _ _ (by decide)
          · unfold typeLine
            rw [String.data_append]
            exact isPrefixOf_append_eq_false _ _ (by decide) _
          · unfold architectureLine
            rw [String.data_append]
            exact isPrefixOf_append_eq_false _ _ (by decide) _
          · unfold originLine
            rw [String.data_append]
            exact isPrefixOf_append_eq_false _ _ (by decide) _
          · unfold producerLine
            rw [String.data_append]
            exact isPrefixOf_append_eq_false _ _ (by decide) _
          · exact isPrefixOf_lit_eq_false _ _ (by decide)
        · unfold repoLineOpt at hrepo
          rcases hmd : md.repository with _ | r
          · rw [hmd] at hrepo
            simp at hrepo
          · rw [hmd] at hrepo
            dsimp only at hrepo
            split_ifs at hrepo
            · rw [List.mem_singleton] at hrepo
              subst hrepo
              unfold repositoryLine
              rw [String.data_append]
              exact isPrefixOf_append_eq_false _ _ (by decide) _
            · simp at hrepo
      · unfold hfLineOpt at hhf
        split_ifs at hhf
        · rw [List.mem_singleton] at hhf
          subst hhf
          unfold huggingfaceLine
          rw [String.data_append]
          exact isPrefixOf_append_eq_false _ _ (by decide) _
        · simp at hhf
    · rw [List.mem_singleton] at hcm
      subst hcm
      exact isPrefixOf_lit_eq_false _ _ (by decide)
  · unfold componentLines at hcl
    rw [List.mem_flatten] at hcl
    obtain ⟨bl, hbl, hlb⟩ := hcl
    rw [List.mem_map] at hbl
    obtain ⟨c, _, rfl⟩ := hbl
    unfold compBlock at hlb
    simp only [List.mem_cons, List.not_mem_nil, or_false] at hlb
    rcases hlb with rfl | rfl | rfl | rfl
    · exact isPrefixOf_lit_eq_false _ _ (by decide)
    · rw [String.data_append]
      exact isPrefixOf_append_eq_false _ _ (by decide) _
    · rw [String.data_append]
      exact isPrefixOf_append_eq_false _ _ (by decide) _
    · unfold licenseLine
      dsimp only
      split_ifs
      · rw [String.data_append]
        exact isPrefixOf_append_eq_false _ _ (by decide) _
      · exact isPrefixOf_lit_eq_false _ _ (by decide)

theorem licenseLine_never_empty_quoted (lv : LicVal) :
    licenseLine lv ≠ "      license: \x27\x27" := by
  intro he
  unfold licenseLine at he
  dsimp only at he
  split_ifs at he with h
  · have hd := congrArg String.data he
    rw [String.data_append, String.data_append] at hd
    have base : ("      license: \x27\x27" : String).data =
        "      license: \x27".data ++ "\x27".data := by decide
    rw [base] at hd
    have hcan := List.append_cancel_left hd
    have hlen := congrArg List.length hcan
    rw [List.length_append] at hlen
    have hzero : (match lv with
        | LicVal.list l => match l with
          | [] => "unlicensed"
          | h :: _ => h
        | LicVal.str s => s).data.length = 0 := by
      have : ("\x27" : String).data.length = 1 := by decide
      omega
    refine h.1 (String.ext ?_)
    have := List.length_eq_zero.mp hzero
    simp [this]
  · exact absurd he (by decide)

/-- Claim C6 (amended): the serialized YAML is the newline-join of the
fixed framework header and the release/components section; within the
release/components section every metadata field except
`repository_confidence` — which is never serialized — is rendered as
exactly one corresponding line (the `repository` and `huggingface`
lines appear exactly once whenever their values are truthy; the fixed
framework header can duplicate a release line when a value coincides
with a header constant, e.g. the default version `'1.0'`); the
component blocks appear one per component in detection order, the
license line quoting the verbatim license string when it is a nonempty
string other than `'unlicensed'` and otherwise carrying the bare token
`unlicensed`, never an empty quoted string. -/
theorem format_yaml_mot_style_spec (md : Metadata)
    (comps : List Component) :
    format_yaml_mot_style md comps =
      joinNl (frameworkLines ++ releaseLines md comps) ∧
    List.count (nameLine md) (releaseLines md comps) = 1 ∧
    List.count (versionLine md) (releaseLines md comps) = 1 ∧
    List.count (dateLine md) (releaseLines md comps) = 1 ∧
    List.count (typeLine md) (releaseLines md comps) = 1 ∧
    List.count (architectureLine md) (releaseLines md comps) = 1 ∧
    List.count (originLine md) (releaseLines md comps) = 1 ∧
    List.count (producerLine md) (releaseLines md comps) = 1 ∧
    (∀ r, md.repository = some r → r ≠ "" →
      List.count (repositoryLine r) (releaseLines md comps) = 1) ∧
    (md.huggingface ≠ "" →
      List.count (huggingfaceLine md) (releaseLines md comps) = 1) ∧
    (∀ l ∈ releaseLines md comps,
      "  repository_confidence".data.isPrefixOf l.data = false) ∧
    componentLines comps = (comps.map compBlock).flatten ∧
    (∀ c : Component, compBlock c =
      ["    -",
       "      name: \x27" ++ (c.name ++ "\x27"),
       "      description: \"" ++ (c.description ++ "\""),
       licenseLine c.license]) ∧
    (∀ s : String, s ≠ "" → s ≠ "unlicensed" →
      licenseLine (.str s) = "      license: \x27" ++ (s ++ "\x27")) ∧
    licenseLine (.str "") = "      license: unlicensed" ∧
    licenseLine (.str "unlicensed") = "      license: unlicensed" ∧
    (∀ lv : LicVal, licenseLine lv ≠ "      license: \x27\x27") := by
  refine ⟨rfl, count_release_nameLine md comps,
    count_release_versionLine md comps, count_release_dateLine md comps,
    count_release_typeLine md comps,
    count_release_architectureLine md comps,
    count_release_originLine md comps,
    count_release_producerLine md comps,
    (fun r hr hrne => count_release_repositoryLine md comps r hr hrne),
    (fun hhf => count_release_huggingfaceLine md comps hhf),
    no_repository_confidence_line md comps, rfl, (fun c => rfl),
    ?_, rfl, rfl, licenseLine_never_empty_quoted⟩
  intro s hs1 hs2
  unfold licenseLine
  dsimp only
  rw [if_pos ⟨hs1, hs2⟩]

/-- Claim C6 counterexample: for the metadata extracted from
`acme/mymodel` (a GitHub link in the card, no digit in the name), the
non-empty field `version` has value `'1.0'` and its line occurs twice
in the serialized lines (framework header plus release section), and
the non-empty field `repository_confidence` yields no line at all, so
"exactly one corresponding line for each field with a non-empty value"
fails as stated. -/
theorem format_yaml_version_duplicated_counterexample :
    (extract_model_metadata
      ⟨"acme/mymodel", ⟨none, [], "2025-01-02T00:00:00"⟩,
        "see https://github.com/acme/mymodel", []⟩
      "2025-03-04" (fun _ => false)).version = "1.0" ∧
    ("1.0" : String) ≠ "" ∧
    List.count
      (versionLine (extract_model_metadata
        ⟨"acme/mymodel", ⟨none, [], "2025-01-02T00:00:00"⟩,
          "see https://github.com/acme/mymodel", []⟩
        "2025-03-04" (fun _ => false)))
      (formatLines (extract_model_metadata
        ⟨"acme/mymodel", ⟨none, [], "2025-01-02T00:00:00"⟩,
          "see https://github.com/acme/mymodel", []⟩
        "2025-03-04" (fun _ => false)) []) = 2 ∧
    (extract_model_metadata
      ⟨"acme/mymodel", ⟨none, [], "2025-01-02T00:00:00"⟩,
        "see https://github.com/acme/mymodel", []⟩
      "2025-03-04" (fun _ => false)).repository_confidence = some 90 ∧
    (formatLines (extract_model_metadata
      ⟨"acme/mymodel", ⟨none, [], "2025-01-02T00:00:00"⟩,
        "see https://github.com/acme/mymodel", []⟩
      "2025-03-04" (fun _ => false)) []).countP
      (fun l => "  repository_confidence".data.isPrefixOf l.data) = 0 := by
  refine ⟨by decide, by decide, by decide, by decide, by decide⟩

/-- Claim C6 witness: for the same extracted metadata, the repository
and name lines each occur exactly once in the release section. -/
theorem format_yaml_mot_style_spec_witness :
    List.count
      (repositoryLine "https://github.com/acme/mymodel")
      (releaseLines (extract_model_metadata
        ⟨"acme/mymodel", ⟨none, [], "2025-01-02T00:00:00"⟩,
          "see https://github.com/acme/mymodel", []⟩
        "2025-03-04" (fun _ => false)) []) = 1 ∧
    List.count
      (nameLine (extract_model_metadata
        ⟨"acme/mymodel", ⟨none, [], "2025-01-02T00:00:00"⟩,
          "see https://github.com/acme/mymodel", []⟩
        "2025-03-04" (fun _ => false)))
      (releaseLines (extract_model_metadata
        ⟨"acme/mymodel", ⟨none, [], "2025-01-02T00:00:00"⟩,
          "see https://github.com/acme/mymodel", []⟩
        "2025-03-04" (fun _ => false)) []) = 1 :=
  ⟨(format_yaml_mot_style_spec _ []).2.2.2.2.2.2.2.2.1
      "https://github.com/acme/mymodel" (by decide) (by decide),
   (format_yaml_mot_style_spec _ []).2.1⟩
